import Mathlib

/-!
A shallow embedding of the BioFlow differential-expression core
(`app/utils.py`): `normalize_columns`, `validate_data`, `clean_data` and
`compute_diff` over pandas DataFrames.

Modelling conventions:
* A pandas cell is a `Cell`: `na` covers both missing values and float NaN
  (pandas treats a float NaN as missing); `num x` models a finite float64 by
  a real number (arithmetic is modelled exactly, without rounding); `pinf`
  and `ninf` model the IEEE-754 infinities; `str s` is a raw string cell.
* A DataFrame is an ordered column-name list (duplicate labels allowed, as
  in pandas after a colliding rename) plus a list of rows of cells aligned
  by position.
* Fallible pandas operations (selecting a duplicated label as a Series,
  `pd.to_numeric` on a non-Series, subtracting object columns containing
  strings) are modelled with `Except`.
* `df.sort_values(by, key=abs, ascending=False)` is modelled the way pandas
  implements it (`nargsort`): a stable ascending argsort of the non-NaN
  keys, then the indexer is reversed, then the NaN positions are appended
  in original order.  numpy introsort is insertion sort (hence stable)
  below its small-array threshold, which covers every concrete table used
  here; the stable ascending argsort is modelled by an insertion sort under
  the lexicographic order on (key, original index).
-/

namespace BioFlow

noncomputable section

/-- A pandas cell value. -/
inductive Cell where
  | na
  | str (s : String)
  | num (x : ℝ)
  | pinf
  | ninf

/-- A pandas DataFrame: ordered column labels (duplicates allowed) and rows
of cells aligned by position. -/
structure DataFrame where
  cols : List String
  rows : List (List Cell)

/-- Positions of every column with the given label, in order. -/
def colIdxsL (cols : List String) (name : String) : List Nat :=
  (List.range cols.length).filter (fun i => cols.getD i "" == name)

/-- Positions of every column of `df` with the given label. -/
def colIdxs (df : DataFrame) (name : String) : List Nat :=
  colIdxsL df.cols name

/-- The cells of the column at position `i`. -/
def colCells (df : DataFrame) (i : Nat) : List Cell :=
  df.rows.map (fun r => r.getD i Cell.na)

/-- `df[name]` as a single column: errors when the label is absent or
duplicated (pandas would return a DataFrame, on which the numeric
operations of this pipeline raise). -/
def getCol1 (df : DataFrame) (name : String) : Except String (List Cell) :=
  match colIdxs df name with
  | [i] => Except.ok (colCells df i)
  | [] => Except.error ("missing column " ++ name)
  | _ => Except.error ("duplicated column " ++ name)

/-- `df[name] = vals`: overwrite in place when the label exists (every
matching position, keeping column order), append a new column otherwise. -/
def setCol (df : DataFrame) (name : String) (vals : List Cell) : DataFrame :=
  if df.cols.contains name then
    ⟨df.cols,
      List.zipWith (fun r v => (colIdxs df name).foldl (fun r2 i => r2.set i v) r) df.rows vals⟩
  else ⟨df.cols ++ [name], List.zipWith (fun r v => r ++ [v]) df.rows vals⟩

/-- Required canonical columns, in order. -/
def REQUIRED_COLUMNS : List String := ["gene", "ctrl", "treat"]

/-- The alias table of `app/utils.py` (case-sensitive exact match). -/
def COLUMN_ALIASES : List (String × List String) :=
  [("gene", ["gene", "gene_id", "symbol", "Gene", "GENE"]),
   ("ctrl", ["ctrl", "control", "CTRL", "Control", "ctl"]),
   ("treat", ["treat", "treatment", "TREAT", "Treatment", "trt"])]

/-- Python dict assignment `m[k] = v` on an association list. -/
def insertAssoc {α : Type} (m : List (String × α)) (k : String) (v : α) :
    List (String × α) :=
  if m.any (fun p => p.1 == k) then m.map (fun p => if p.1 == k then (k, v) else p)
  else m ++ [(k, v)]

/-- Dict lookup on an association list. -/
def lookupAssoc {α : Type} : List (String × α) → String → Option α
  | [], _ => none
  | p :: m, k => if p.1 == k then some p.2 else lookupAssoc m k

/-- The `col_map` dict of `normalize_columns`: for each canonical name and
each column of the table, map the column name to the canonical name when it
is listed as an alias. -/
def buildColMap (cols : List String) : List (String × String) :=
  COLUMN_ALIASES.foldl
    (fun m p => cols.foldl (fun m2 c => if p.2.contains c then insertAssoc m2 c p.1 else m2) m)
    []

/-- `normalize_columns`: rename every aliased column to its canonical name
(`df.rename(columns=col_map)`); rows are untouched and the input is not
mutated. -/
def normalize_columns (df : DataFrame) : DataFrame :=
  let cm := buildColMap df.cols
  ⟨df.cols.map (fun c => (lookupAssoc cm c).getD c), df.rows⟩

/-- The canonical name of a column: the standard name whose alias list
contains it, else itself. -/
def canonName (c : String) : String :=
  match COLUMN_ALIASES.find? (fun p => p.2.contains c) with
  | some p => p.1
  | none => c

/-- Digits of a numeral, as a natural number. -/
def natOfDigits (cs : List Char) : Option Nat :=
  match cs with
  | [] => none
  | _ =>
    if cs.all Char.isDigit then
      some (cs.foldl (fun n c => 10 * n + (c.toNat - 48)) 0)
    else none

/-- An unsigned decimal numeral with optional fraction part. -/
def parseUnsigned (t : String) : Option ℚ :=
  match t.splitOn "." with
  | [a] => (natOfDigits a.toList).map (fun n => (n : ℚ))
  | [a, b] =>
    match natOfDigits a.toList, natOfDigits b.toList with
    | some n, some m => some ((n : ℚ) + (m : ℚ) / (10 : ℚ) ^ b.length)
    | _, _ => none
  | _ => none

/-- The decimal core of the pandas numeric parser (sign, digits, optional
fraction); a string cell is numeric-convertible exactly when this parses. -/
def parseDecimal (s : String) : Option ℚ :=
  match s.toList with
  | '-' :: t => (parseUnsigned (String.mk t)).map (fun q => -q)
  | '+' :: t => parseUnsigned (String.mk t)
  | _ => parseUnsigned s

/-- Is the cell a string? -/
def cellIsStr : Cell → Bool
  | Cell.str _ => true
  | _ => false

/-- Is the cell missing (None or float NaN)? -/
def cellIsNa : Cell → Bool
  | Cell.na => true
  | _ => false

/-- Does `pd.to_numeric` accept the cell? -/
def cellParses : Cell → Bool
  | Cell.str s => (parseDecimal s).isSome
  | _ => true

/-- `pd.to_numeric(..., errors="coerce")` on one cell. -/
def toNumericCell : Cell → Cell
  | Cell.str s =>
    match parseDecimal s with
    | some q => Cell.num (q : ℝ)
    | none => Cell.na
  | c => c

/-- The validation report returned by `validate_data`. -/
structure ValidationReport where
  row_count : Nat
  na_counts : List (String × Nat)
  missing_columns : List String
  numeric_issue : Bool

/-- `df.isna().sum().to_dict()`: per-position NA counts collapsed into a
dict by label (a later duplicate label overwrites an earlier count, as in
Python). -/
def naCountsOf (df : DataFrame) : List (String × Nat) :=
  (List.range df.cols.length).foldl
    (fun m i =>
      insertAssoc m (df.cols.getD i "")
        ((df.rows.filter (fun r => cellIsNa (r.getD i Cell.na))).length))
    []

/-- Does the numeric-convertibility probe on `df_norm[col]` fail?  It fails
when the label is duplicated (`pd.to_numeric` rejects the resulting
DataFrame) or when some cell of the column does not parse as a number. -/
def colNumericIssue (df : DataFrame) (col : String) : Bool :=
  decide (2 ≤ (colIdxs df col).length) ||
    (colIdxs df col).any (fun i => (colCells df i).any (fun c => !(cellParses c)))

/-- `validate_data`: the report of row count, per-column NA counts, missing
required columns and the ctrl/treat numeric-convertibility flag.  It is a
total function: the numeric probe catches every exception. -/
def validate_data (df : DataFrame) : ValidationReport :=
  let dfn := normalize_columns df
  ⟨dfn.rows.length,
   naCountsOf dfn,
   REQUIRED_COLUMNS.filter (fun c => !(dfn.cols.contains c)),
   (["ctrl", "treat"].any (fun col => dfn.cols.contains col && colNumericIssue dfn col))⟩

/-- `df[cols]` label-based projection; a duplicated label contributes every
matching column, in original order. -/
def projectCols (df : DataFrame) (cols : List String) : DataFrame :=
  let idxs := (cols.map (colIdxs df)).flatten
  ⟨idxs.map (fun i => df.cols.getD i ""),
   df.rows.map (fun r => idxs.map (fun i => r.getD i Cell.na))⟩

/-- `df[col] = pd.to_numeric(df[col], errors="coerce")` guarded by
`if col in df.columns`; errors when the label is duplicated, because
`pd.to_numeric` then receives a DataFrame and raises regardless of
`errors="coerce"`. -/
def coerceNumericCol (df : DataFrame) (col : String) : Except String DataFrame :=
  if df.cols.contains col then
    match colIdxs df col with
    | [i] =>
      Except.ok ⟨df.cols, df.rows.map (fun r => r.set i (toNumericCell (r.getD i Cell.na)))⟩
    | _ => Except.error ("to_numeric of duplicated column " ++ col)
  else Except.ok df

/-- `df.dropna(how="all")`: drop rows whose every cell (one per column) is
missing.  With zero columns every row is vacuously all-missing and is
dropped, as in pandas. -/
def dropAllNaRows (df : DataFrame) : DataFrame :=
  ⟨df.cols,
   df.rows.filter (fun r => !((List.range df.cols.length).all (fun i => cellIsNa (r.getD i Cell.na))))⟩

/-- `df.dropna(subset=names)`: drop rows missing a value in any column
whose label is in `names` (every matching position of a duplicated label);
an empty subset keeps every row. -/
def dropNaSubsetRows (df : DataFrame) (names : List String) : DataFrame :=
  let idxs := (names.map (colIdxs df)).flatten
  ⟨df.cols, df.rows.filter (fun r => idxs.all (fun i => !(cellIsNa (r.getD i Cell.na))))⟩

/-- Value equality as `drop_duplicates` sees it: NaN equals NaN, numbers
compare by value, strings by content, nothing across kinds. -/
def cellKeyEqB : Cell → Cell → Bool
  | Cell.na, Cell.na => true
  | Cell.str a, Cell.str b => a == b
  | Cell.num x, Cell.num y => decide (x = y)
  | Cell.pinf, Cell.pinf => true
  | Cell.ninf, Cell.ninf => true
  | _, _ => false

/-- Row-key equality for deduplication. -/
def keyEqB (a b : List Cell) : Bool :=
  a.length == b.length && (a.zip b).all (fun p => cellKeyEqB p.1 p.2)

/-- Keep the first row for each key, scanning in order. -/
def dedupGo (key : List Cell → List Cell) (seen : List (List Cell)) :
    List (List Cell) → List (List Cell)
  | [] => []
  | r :: rest =>
    if seen.any (fun k => keyEqB k (key r)) then dedupGo key seen rest
    else r :: dedupGo key (key r :: seen) rest

/-- `df.drop_duplicates(subset=names)`: keep the first row per key drawn
from the named columns. -/
def dropDupBy (df : DataFrame) (names : List String) : DataFrame :=
  let idxs := (names.map (colIdxs df)).flatten
  ⟨df.cols, dedupGo (fun r => idxs.map (fun i => r.getD i Cell.na)) [] df.rows⟩

/-- `clean_data`: normalize, project to the required columns present
(skipped entirely when none is present, per the `if cols:` guard), coerce
ctrl/treat to numeric, drop all-missing rows, drop rows missing a required
value, deduplicate by gene. -/
def clean_data (df : DataFrame) : Except String DataFrame := do
  let dfn := normalize_columns df
  let present := REQUIRED_COLUMNS.filter (fun c => dfn.cols.contains c)
  let df1 := if present.isEmpty then dfn else projectCols dfn present
  let df2 ← coerceNumericCol df1 "ctrl"
  let df3 ← coerceNumericCol df2 "treat"
  let df4 := dropAllNaRows df3
  let df5 := dropNaSubsetRows df4 (REQUIRED_COLUMNS.filter (fun c => df4.cols.contains c))
  pure (if df5.cols.contains "gene" then dropDupBy df5 ["gene"] else df5)

/-- IEEE-style subtraction `a - b` on cells; a string operand is a type
error, checked separately before this is applied. -/
def cellSub : Cell → Cell → Cell
  | Cell.num x, Cell.num y => Cell.num (x - y)
  | Cell.num _, Cell.pinf => Cell.ninf
  | Cell.num _, Cell.ninf => Cell.pinf
  | Cell.pinf, Cell.num _ => Cell.pinf
  | Cell.ninf, Cell.num _ => Cell.ninf
  | Cell.pinf, Cell.ninf => Cell.pinf
  | Cell.ninf, Cell.pinf => Cell.ninf
  | _, _ => Cell.na

/-- IEEE-style addition of a real scalar. -/
def cellAddR (c : Cell) (e : ℝ) : Cell :=
  match c with
  | Cell.num x => Cell.num (x + e)
  | Cell.pinf => Cell.pinf
  | Cell.ninf => Cell.ninf
  | _ => Cell.na

/-- IEEE-style division `a / b` on cells (zero is unsigned in this model,
so a nonzero number over zero gets the sign of the numerator). -/
def cellDiv : Cell → Cell → Cell
  | Cell.num x, Cell.num y =>
    if y = 0 then (if x = 0 then Cell.na else if 0 < x then Cell.pinf else Cell.ninf)
    else Cell.num (x / y)
  | Cell.num _, Cell.pinf => Cell.num 0
  | Cell.num _, Cell.ninf => Cell.num 0
  | Cell.pinf, Cell.num y => if 0 ≤ y then Cell.pinf else Cell.ninf
  | Cell.ninf, Cell.num y => if 0 ≤ y then Cell.ninf else Cell.pinf
  | _, _ => Cell.na

/-- `np.log2` on a cell: NaN for negative numbers and NaN, negative
infinity at zero, infinity at infinity. -/
def cellLog2 : Cell → Cell
  | Cell.num x => if 0 < x then Cell.num (Real.logb 2 x) else if x = 0 then Cell.ninf else Cell.na
  | Cell.pinf => Cell.pinf
  | _ => Cell.na

/-- `np.abs` on a cell. -/
def cellAbs : Cell → Cell
  | Cell.num x => Cell.num |x|
  | Cell.pinf => Cell.pinf
  | Cell.ninf => Cell.pinf
  | _ => Cell.na

/-- The comparison `c >= t` of a cell against a real threshold; false on
NaN, per IEEE-754. -/
def cellGeB (c : Cell) (t : ℝ) : Bool :=
  match c with
  | Cell.num x => decide (t ≤ x)
  | Cell.pinf => true
  | _ => false

/-- The comparison `c <= t`; false on NaN. -/
def cellLeB (c : Cell) (t : ℝ) : Bool :=
  match c with
  | Cell.num x => decide (x ≤ t)
  | Cell.ninf => true
  | _ => false

/-- The direction label of a log2FC cell: the masked writes start from
`unchanged`, write `up` where `log2FC >= 1`, then write `down` where
`log2FC <= -1`, so a later `down` write wins. -/
def directionOf (l : Cell) : Cell :=
  if cellLeB l (-1) then Cell.str "down"
  else if cellGeB l 1 then Cell.str "up"
  else Cell.str "unchanged"

/-- Does the cell equal the given string under pandas `==`? -/
def cellEqStr (c : Cell) (s : String) : Bool :=
  match c with
  | Cell.str t => t == s
  | _ => false

/-- Column subtraction `treat - ctrl`; an object column containing a string
raises, otherwise pointwise IEEE subtraction. -/
def subColumns (a b : List Cell) : Except String (List Cell) :=
  if a.any cellIsStr || b.any cellIsStr then Except.error "TypeError in column subtraction"
  else Except.ok (List.zipWith cellSub a b)

/-- Sort-key category used by the descending `|log2FC|` sort: NaN-like
cells are masked out separately; finite below infinite. -/
def keyCat : Cell → Nat
  | Cell.num _ => 1
  | Cell.pinf => 2
  | _ => 0

/-- Numeric payload of a sort key. -/
def keyVal : Cell → ℝ
  | Cell.num x => x
  | _ => 0

/-- Is the sort key NaN (masked to the end by `na_position="last"`)? -/
def isNaKey : Cell → Bool
  | Cell.num _ => false
  | Cell.pinf => false
  | Cell.ninf => false
  | _ => true

/-- The effective ascending order of the argsort pandas `nargsort` runs for
a descending sort.  `nargsort` reverses the non-NaN values *and* their
original positions before the stable ascending argsort (and reverses the
indexer afterwards), so within the argsort an equal-key pair stands in
reversed original order: the stable ascending comparison therefore orders
equal keys by *descending* original position (`j ≤ i`), and the final
reversal restores original order among ties.  The position tie-break makes
the relation a total order. -/
def sortRel (keys : List Cell) (i j : Nat) : Prop :=
  keyCat (keys.getD i Cell.na) < keyCat (keys.getD j Cell.na) ∨
    (keyCat (keys.getD i Cell.na) = keyCat (keys.getD j Cell.na) ∧
      (keyVal (keys.getD i Cell.na) < keyVal (keys.getD j Cell.na) ∨
        (keyVal (keys.getD i Cell.na) = keyVal (keys.getD j Cell.na) ∧ j ≤ i)))

instance sortRelDec (keys : List Cell) : DecidableRel (sortRel keys) := fun i j => by
  unfold sortRel
  infer_instance

instance sortRelTotal (keys : List Cell) : IsTotal Nat (sortRel keys) := by
  constructor
  intro i j
  unfold sortRel
  rcases lt_trichotomy (keyCat (keys.getD i Cell.na)) (keyCat (keys.getD j Cell.na)) with h | h | h
  · exact Or.inl (Or.inl h)
  · rcases lt_trichotomy (keyVal (keys.getD i Cell.na)) (keyVal (keys.getD j Cell.na)) with h2 | h2 | h2
    · exact Or.inl (Or.inr ⟨h, Or.inl h2⟩)
    · rcases Nat.le_total j i with h3 | h3
      · exact Or.inl (Or.inr ⟨h, Or.inr ⟨h2, h3⟩⟩)
      · exact Or.inr (Or.inr ⟨h.symm, Or.inr ⟨h2.symm, h3⟩⟩)
    · exact Or.inr (Or.inr ⟨h.symm, Or.inl h2⟩)
  · exact Or.inr (Or.inl h)

instance sortRelTrans (keys : List Cell) : IsTrans Nat (sortRel keys) := by
  constructor
  intro i j k hij hjk
  unfold sortRel at *
  rcases hij with h1 | ⟨h1, h1'⟩
  · rcases hjk with h2 | ⟨h2, _⟩
    · exact Or.inl (h1.trans h2)
    · exact Or.inl (h2 ▸ h1)
  · rcases hjk with h2 | ⟨h2, h2'⟩
    · exact Or.inl (h1 ▸ h2)
    · refine Or.inr ⟨h1.trans h2, ?_⟩
      rcases h1' with h3 | ⟨h3, h3'⟩
      · rcases h2' with h4 | ⟨h4, _⟩
        · exact Or.inl (h3.trans h4)
        · exact Or.inl (h4 ▸ h3)
      · rcases h2' with h4 | ⟨h4, h4'⟩
        · exact Or.inl (h3 ▸ h4)
        · exact Or.inr ⟨h3.trans h4, h4'.trans h3'⟩

/-- The pandas `nargsort` indexer for a descending sort with
`na_position="last"`: the non-NaN values and positions are reversed, the
reversed slice is argsorted ascending (stably — exact for numpy introsort
below its small-array insertion-sort threshold), and the indexer is
reversed back, so equal keys come out in original input order; the NaN
positions are appended in original order.  `sortRel` already folds the
pre-reversal into its position tie-break, so the double reversal collapses
to the single `.reverse` here. -/
def sortIdx (keys : List Cell) : List Nat :=
  let idx := List.range keys.length
  let nonNan := idx.filter (fun i => !(isNaKey (keys.getD i Cell.na)))
  let nans := idx.filter (fun i => isNaKey (keys.getD i Cell.na))
  (List.insertionSort (sortRel keys) nonNan).reverse ++ nans

/-- The exact summary format string of `compute_diff`. -/
def mkSummary (total up down : Nat) : String :=
  "共 " ++ toString total ++ " 基因；|log2FC|>=1 上調 " ++ toString up ++ "、下調 " ++
    toString down

/-- The four result columns `compute_diff` writes, in order. -/
def addedNames : List String := ["delta", "fold_change", "log2FC", "direction"]

/-- `compute_diff`: check ctrl/treat presence, write delta, fold_change,
log2FC and direction columns, sort descending by `|log2FC|`, and build the
summary from the sorted table. -/
def compute_diff (df : DataFrame) (eps : ℝ) : Except String (DataFrame × String) := do
  if !(df.cols.contains "ctrl") then Except.error "compute_diff 需要欄位 ctrl"
  else if !(df.cols.contains "treat") then Except.error "compute_diff 需要欄位 treat"
  else do
    let t ← getCol1 df "treat"
    let c ← getCol1 df "ctrl"
    let dvals ← subColumns t c
    let df1 := setCol df "delta" dvals
    let fvals := List.zipWith cellDiv (t.map (fun x => cellAddR x eps))
      (c.map (fun x => cellAddR x eps))
    let df2 := setCol df1 "fold_change" fvals
    let lvals := fvals.map cellLog2
    let df3 := setCol df2 "log2FC" lvals
    let df4 := setCol df3 "direction" (lvals.map directionOf)
    let lcol ← getCol1 df4 "log2FC"
    let idxr := sortIdx (lcol.map cellAbs)
    let df5 : DataFrame := ⟨df4.cols, idxr.map (fun i => df4.rows.getD i [])⟩
    let dcol ← getCol1 df5 "direction"
    let up := (dcol.filter (fun c0 => cellEqStr c0 "up")).length
    let down := (dcol.filter (fun c0 => cellEqStr c0 "down")).length
    pure (df5, mkSummary df5.rows.length up down)

/-- The fold-change cell of a row, reading treat and ctrl at the given
positions. -/
def rowFold (eps : ℝ) (ci ti : Nat) (r : List Cell) : Cell :=
  cellDiv (cellAddR (r.getD ti Cell.na) eps) (cellAddR (r.getD ci Cell.na) eps)

/-- A row extended by the four result cells of `compute_diff`. -/
def extendRow (eps : ℝ) (ci ti : Nat) (r : List Cell) : List Cell :=
  r ++ [cellSub (r.getD ti Cell.na) (r.getD ci Cell.na),
        rowFold eps ci ti r,
        cellLog2 (rowFold eps ci ti r),
        directionOf (cellLog2 (rowFold eps ci ti r))]

/-- The `|log2FC|` sort key of a row. -/
def rowKey (eps : ℝ) (ci ti : Nat) (r : List Cell) : Cell :=
  cellAbs (cellLog2 (rowFold eps ci ti r))

/-- The rows of the `compute_diff` result in closed form: every input row
extended by the four result cells, permuted by the descending `|log2FC|`
indexer. -/
def diffRows (df : DataFrame) (eps : ℝ) (ci ti : Nat) : List (List Cell) :=
  (sortIdx (df.rows.map (rowKey eps ci ti))).map
    (fun i => (df.rows.map (extendRow eps ci ti)).getD i [])

/-- Count of result rows carrying the given direction label, read at the
direction column position. -/
def dirCount (base : Nat) (rows2 : List (List Cell)) (s : String) : Nat :=
  (rows2.filter (fun r => cellEqStr (r.getD (base + 3) Cell.na) s)).length

/-- The input domain of `compute_diff` used by the general theorems: the
spec's CleanRow-shaped tables.  `ctrl` and `treat` are single columns, the
cells of those two columns are not strings, the rows are rectangular, and
none of the four result column names is already taken.  All conjuncts are
decidable. -/
def okInput (df : DataFrame) : Prop :=
  (colIdxs df "ctrl").length = 1 ∧ (colIdxs df "treat").length = 1 ∧
  ((colIdxs df "ctrl" ++ colIdxs df "treat").all
    (fun i => !((colCells df i).any cellIsStr))) = true ∧
  (df.rows.all (fun r => r.length == df.cols.length)) = true ∧
  (addedNames.all (fun n => !(df.cols.contains n))) = true

instance okInputDec (df : DataFrame) : Decidable (okInput df) := by
  unfold okInput
  infer_instance

/-- The pairwise shape of the descending sort indexer: a NaN-keyed position
is followed only by NaN-keyed positions in ascending original order, and
two non-NaN positions are in descending key order with equal keys kept in
original input order (the sort is stable). -/
def sortedAfter (keys : List Cell) (i j : Nat) : Prop :=
  (isNaKey (keys.getD i Cell.na) = true →
    isNaKey (keys.getD j Cell.na) = true ∧ i < j) ∧
  (isNaKey (keys.getD i Cell.na) = false → isNaKey (keys.getD j Cell.na) = false →
    sortRel keys j i)

/-- Collision input for the normalizer: `ctrl` and `control` both alias to
`ctrl`. -/
def tblCollide : DataFrame := ⟨["ctrl", "control"], [[Cell.num 1, Cell.num 2]]⟩

/-- Collision input for the cleaner: an ordinary four-column table whose
`ctrl` and `control` both normalize to `ctrl`. -/
def tblCollideFull : DataFrame :=
  ⟨["gene", "ctrl", "control", "treat"],
   [[Cell.str "A", Cell.num 1, Cell.num 2, Cell.num 3]]⟩

/-- A table with no canonical column at all. -/
def tblFoo : DataFrame := ⟨["foo"], [[Cell.str "x"]]⟩

/-- Two rows with opposite log2FC, hence equal `|log2FC|` sort keys. -/
def tblTie : DataFrame :=
  ⟨["gene", "ctrl", "treat"],
   [[Cell.str "A", Cell.num 1, Cell.num 3], [Cell.str "B", Cell.num 3, Cell.num 1]]⟩

/-- A zero-row table with all three canonical columns. -/
def tblZero : DataFrame := ⟨["gene", "ctrl", "treat"], []⟩

/-- A zero-row table without the gene column. -/
def tblNoGene : DataFrame := ⟨["ctrl", "treat"], []⟩

/-- One row with ctrl = treat = 0. -/
def tblZeroes : DataFrame :=
  ⟨["gene", "ctrl", "treat"], [[Cell.str "G", Cell.num 0, Cell.num 0]]⟩

/-- A table that already has a `delta` column. -/
def tblDeltaCol : DataFrame :=
  ⟨["ctrl", "treat", "delta"], [[Cell.num 1, Cell.num 3, Cell.num 99]]⟩

/-- Five rows: two up, one down, two unchanged. -/
def tblFive : DataFrame :=
  ⟨["gene", "ctrl", "treat"],
   [[Cell.str "A", Cell.num 1, Cell.num 3],
    [Cell.str "B", Cell.num 1, Cell.num 5],
    [Cell.str "C", Cell.num 4, Cell.num 1],
    [Cell.str "D", Cell.num 1, Cell.num 1],
    [Cell.str "E", Cell.num 2, Cell.num 2]]⟩

/-- Two rows sharing a gene, with distinct values. -/
def tblDupGene : DataFrame :=
  ⟨["gene", "ctrl", "treat"],
   [[Cell.str "A", Cell.num 1, Cell.num 2], [Cell.str "A", Cell.num 3, Cell.num 4]]⟩

/-- The cleaned shape of one row: gene cell as-is, ctrl and treat coerced
to numeric, reading the normalized table at the given column positions. -/
def cleanRowOf (gi ci ti : Nat) (r : List Cell) : List Cell :=
  [r.getD gi Cell.na, toNumericCell (r.getD ci Cell.na), toNumericCell (r.getD ti Cell.na)]

/-- Does a cleaned three-cell row survive the dropna steps (no missing
value in any of its three cells)? -/
def keepRow3 (r : List Cell) : Bool :=
  ([0, 1, 2] : List Nat).all (fun i => !(cellIsNa (r.getD i Cell.na)))

/-- The dedup key of a cleaned row: its gene cell. -/
def geneKey (r : List Cell) : List Cell := [r.getD 0 Cell.na]

/-- Is the cell a (possibly infinite) number? -/
def isNumCell : Cell → Bool
  | Cell.num _ => true
  | Cell.pinf => true
  | Cell.ninf => true
  | _ => false

end

/-! ### Column-index helper lemmas -/

theorem mem_colIdxsL {cs : List String} {name : String} {i : Nat} :
    i ∈ colIdxsL cs name ↔ i < cs.length ∧ cs.getD i "" = name := by
  unfold colIdxsL
  simp [List.mem_filter, List.mem_range, beq_iff_eq]

theorem colIdxsL_append_singleton (cs : List String) (n name : String) :
    colIdxsL (cs ++ [n]) name =
      colIdxsL cs name ++ (if n = name then [cs.length] else []) := by
  unfold colIdxsL
  rw [List.length_append, List.length_cons, List.length_nil, List.range_succ,
    List.filter_append]
  congr 1
  · apply List.filter_congr
    intro i hi
    rw [List.mem_range] at hi
    have h : (cs ++ [n]).getD i "" = cs.getD i "" := by
      simp [List.getD_eq_getElem?_getD, List.getElem?_append_left hi]
    rw [h]
  · have h : (cs ++ [n]).getD cs.length "" = n := by
      simp [List.getD_eq_getElem?_getD, List.getElem?_concat_length]
    by_cases hn : n = name
    · simp [List.filter, h, hn]
    · have hb : (n == name) = false := by
        simpa using hn
      simp [List.filter, h, hb, hn]

theorem colIdxsL_eq_nil (cs : List String) (name : String)
    (h : cs.contains name = false) : colIdxsL cs name = [] := by
  unfold colIdxsL
  rw [List.filter_eq_nil_iff]
  intro i hi
  rw [List.mem_range] at hi
  have hmem : cs.getD i "" ∈ cs := by
    rw [List.getD_eq_getElem?_getD]
    have : cs[i]? = some cs[i] := List.getElem?_eq_getElem hi
    rw [this]
    exact List.getElem_mem hi
  intro hc
  rw [beq_iff_eq] at hc
  have : cs.contains name = true := List.elem_eq_true_of_mem (hc ▸ hmem)
  rw [h] at this
  exact Bool.false_ne_true this

theorem contains_of_colIdxsL {cs : List String} {name : String} {i : Nat} {l : List Nat}
    (h : colIdxsL cs name = i :: l) : cs.contains name = true := by
  by_cases hc : cs.contains name
  · exact hc
  · rw [colIdxsL_eq_nil cs name (by simpa using hc)] at h
    exact absurd h (List.cons_ne_nil i l).symm

theorem map_getD_range {α : Type} (l : List α) (d : α) :
    (List.range l.length).map (fun i => l.getD i d) = l := by
  apply List.ext_getElem
  · simp
  · intro i h1 h2
    simp [List.getD_eq_getElem?_getD, List.getElem?_eq_getElem h2]

/-! ### Sort indexer lemmas -/

theorem sortIdx_perm (keys : List Cell) :
    List.Perm (sortIdx keys) (List.range keys.length) := by
  unfold sortIdx
  refine List.Perm.trans ?_
    (List.filter_append_perm (fun i => !(isNaKey (keys.getD i Cell.na)))
      (List.range keys.length))
  apply List.Perm.append
  · exact List.Perm.trans (List.reverse_perm _)
      (List.perm_insertionSort (sortRel keys) _)
  · apply List.Perm.of_eq
    apply List.filter_congr
    intro i _
    simp

theorem sortIdx_length (keys : List Cell) :
    (sortIdx keys).length = keys.length := by
  simpa using (sortIdx_perm keys).length_eq

theorem mem_sortIdx {keys : List Cell} {i : Nat} :
    i ∈ sortIdx keys ↔ i < keys.length := by
  rw [(sortIdx_perm keys).mem_iff, List.mem_range]

theorem sortIdx_pairwise (keys : List Cell) :
    (sortIdx keys).Pairwise (sortedAfter keys) := by
  unfold sortIdx
  rw [List.pairwise_append]
  refine ⟨?_, ?_, ?_⟩
  · rw [List.pairwise_reverse]
    have hs := List.sorted_insertionSort (sortRel keys)
      ((List.range keys.length).filter (fun i => !(isNaKey (keys.getD i Cell.na))))
    refine List.Pairwise.imp_of_mem ?_ hs
    intro a b ha hb hr
    rw [List.mem_insertionSort] at ha hb
    have hna : isNaKey (keys.getD a Cell.na) = false := by
      have := List.of_mem_filter ha
      simpa using this
    have hnb : isNaKey (keys.getD b Cell.na) = false := by
      have := List.of_mem_filter hb
      simpa using this
    constructor
    · intro hcon
      rw [hnb] at hcon
      exact absurd hcon (by simp)
    · intro _ _
      exact hr
  · have hlt : (List.range keys.length).Pairwise (fun a b => a < b) :=
      List.pairwise_lt_range keys.length
    refine List.Pairwise.imp_of_mem ?_
      (hlt.filter (fun i => isNaKey (keys.getD i Cell.na)))
    intro a b ha hb hab
    have hna : isNaKey (keys.getD a Cell.na) = true := by
      have := List.of_mem_filter ha
      simpa using this
    have hnb : isNaKey (keys.getD b Cell.na) = true := by
      have := List.of_mem_filter hb
      simpa using this
    exact ⟨fun _ => ⟨hnb, hab⟩, fun hf _ => absurd hna (by rw [hf]; simp)⟩
  · intro a ha b hb
    rw [List.mem_reverse, List.mem_insertionSort] at ha
    have hna : isNaKey (keys.getD a Cell.na) = false := by
      have := List.of_mem_filter ha
      simpa using this
    have hnb : isNaKey (keys.getD b Cell.na) = true := by
      have := List.of_mem_filter hb
      simpa using this
    constructor
    · intro hcon
      rw [hna] at hcon
      exact absurd hcon (by simp)
    · intro _ hcon
      rw [hnb] at hcon
      exact absurd hcon (by simp)

/-! ### compute_diff structure -/

theorem exceptBindOk {α β : Type} (a : α) (f : α → Except String β) :
    (Except.ok a >>= f) = f a := rfl

theorem getCol1_of_single {df : DataFrame} {name : String} {i : Nat}
    (h : colIdxs df name = [i]) : getCol1 df name = Except.ok (colCells df i) := by
  unfold getCol1
  rw [h]

theorem setCol_fresh (df : DataFrame) (name : String) (vals : List Cell)
    (h : df.cols.contains name = false) :
    setCol df name vals =
      ⟨df.cols ++ [name], List.zipWith (fun r v => r ++ [v]) df.rows vals⟩ := by
  unfold setCol
  rw [h]
  simp

theorem contains_append_one (cs : List String) (a b : String)
    (h1 : cs.contains b = false) (h2 : a ≠ b) :
    (cs ++ [a]).contains b = false := by
  simp only [List.contains, List.elem_eq_mem, decide_eq_false_iff_not] at *
  rw [List.mem_append]
  rintro (h | h)
  · exact h1 h
  · rw [List.mem_singleton] at h
    exact h2 h.symm

theorem zipWith_map_same {α β γ δ : Type} (f : β → γ → δ) (g : α → β) (h : α → γ)
    (l : List α) :
    List.zipWith f (l.map g) (l.map h) = l.map (fun x => f (g x) (h x)) := by
  rw [List.zipWith_map, List.zipWith_same]

theorem zipWith_append_map {α : Type} (l : List (List α)) (g : List α → List α)
    (h : List α → α) :
    List.zipWith (fun r v => r ++ [v]) (l.map g) (l.map h) =
      l.map (fun x => g x ++ [h x]) :=
  zipWith_map_same _ _ _ l

theorem zipWith_append_map2 {α : Type} (l : List (List α)) (h : List α → α) :
    List.zipWith (fun r v => r ++ [v]) l (l.map h) = l.map (fun x => x ++ [h x]) := by
  rw [List.zipWith_map_right, List.zipWith_same]

theorem getD_append_right_cells (r L : List Cell) (k : Nat) (hk : r.length ≤ k) :
    (r ++ L).getD k Cell.na = L.getD (k - r.length) Cell.na := by
  simp [List.getD_eq_getElem?_getD, List.getElem?_append_right hk]

theorem getD_append_off (r L : List Cell) (n k : Nat) (h : r.length = n) :
    (r ++ L).getD (n + k) Cell.na = L.getD k Cell.na := by
  rw [getD_append_right_cells _ _ _ (by omega)]
  congr 1
  omega

theorem compute_diff_ok (df : DataFrame) (eps : ℝ) (ci ti : Nat)
    (h1 : colIdxs df "ctrl" = [ci]) (h2 : colIdxs df "treat" = [ti])
    (h3c : (colCells df ci).any cellIsStr = false)
    (h3t : (colCells df ti).any cellIsStr = false)
    (h4 : df.rows.all (fun r => r.length == df.cols.length) = true)
    (h5 : addedNames.all (fun n => !(df.cols.contains n)) = true) :
    compute_diff df eps = Except.ok
      (⟨df.cols ++ addedNames, diffRows df eps ci ti⟩,
       mkSummary (diffRows df eps ci ti).length
         (dirCount df.cols.length (diffRows df eps ci ti) "up")
         (dirCount df.cols.length (diffRows df eps ci ti) "down")) := by
  have hctrl : df.cols.contains "ctrl" = true := contains_of_colIdxsL h1
  have htreat : df.cols.contains "treat" = true := contains_of_colIdxsL h2
  have h5' : ∀ n ∈ addedNames, df.cols.contains n = false := by
    intro n hn
    have := (List.all_eq_true.mp h5) n hn
    simpa using this
  have hd : df.cols.contains "delta" = false := h5' _ (by simp [addedNames])
  have hf : df.cols.contains "fold_change" = false := h5' _ (by simp [addedNames])
  have hl : df.cols.contains "log2FC" = false := h5' _ (by simp [addedNames])
  have hr : df.cols.contains "direction" = false := h5' _ (by simp [addedNames])
  have hlen : ∀ r ∈ df.rows, r.length = df.cols.length := by
    intro r hrr
    have := (List.all_eq_true.mp h4) r hrr
    simpa using this
  -- the subtraction column
  have hsub : subColumns (colCells df ti) (colCells df ci) =
      Except.ok (df.rows.map (fun r => cellSub (r.getD ti Cell.na) (r.getD ci Cell.na))) := by
    unfold subColumns
    rw [h3t, h3c]
    simp [colCells, zipWith_map_same]
  -- column lists of the intermediate frames
  have hc1 : (df.cols ++ ["delta"]).contains "fold_change" = false :=
    contains_append_one _ _ _ hf (by decide)
  have hc2aux : ((df.cols ++ ["delta"]) ++ ["fold_change"]).contains "log2FC" = false :=
    contains_append_one _ _ _ (contains_append_one _ _ _ hl (by decide)) (by decide)
  have hc3aux : (((df.cols ++ ["delta"]) ++ ["fold_change"]) ++ ["log2FC"]).contains "direction"
      = false :=
    contains_append_one _ _ _
      (contains_append_one _ _ _ (contains_append_one _ _ _ hr (by decide)) (by decide))
      (by decide)
  have hc2 : (df.cols ++ ["delta", "fold_change"]).contains "log2FC" = false := by
    simpa using hc2aux
  have hc3 : (df.cols ++ ["delta", "fold_change", "log2FC"]).contains "direction" = false := by
    simpa using hc3aux
  -- position of log2FC and direction in the final frame
  have hcolsLen : ((df.cols ++ ["delta"]) ++ ["fold_change"]).length = df.cols.length + 2 := by
    simp
  have hIdxLaux : colIdxsL ((((df.cols ++ ["delta"]) ++ ["fold_change"]) ++ ["log2FC"])
      ++ ["direction"]) "log2FC" = [df.cols.length + 2] := by
    rw [colIdxsL_append_singleton, colIdxsL_append_singleton]
    rw [colIdxsL_eq_nil _ _ hc2aux]
    simp [hcolsLen]
  have hIdxDaux : colIdxsL ((((df.cols ++ ["delta"]) ++ ["fold_change"]) ++ ["log2FC"])
      ++ ["direction"]) "direction" = [df.cols.length + 3] := by
    rw [colIdxsL_append_singleton]
    rw [colIdxsL_eq_nil _ _ hc3aux]
    simp
  have hIdxL : colIdxsL (df.cols ++ ["delta", "fold_change", "log2FC", "direction"])
      "log2FC" = [df.cols.length + 2] := by
    simpa using hIdxLaux
  have hIdxD : colIdxsL (df.cols ++ ["delta", "fold_change", "log2FC", "direction"])
      "direction" = [df.cols.length + 3] := by
    simpa using hIdxDaux
  have hTcol := getCol1_of_single h2
  have hCcol := getCol1_of_single h1
  simp only [compute_diff, hctrl, htreat, Bool.not_true, Bool.false_eq_true, if_false,
    hTcol, hCcol, hsub, exceptBindOk]
  simp only [setCol_fresh, hd, hc1, hc2, hc3, colCells, List.map_map, zipWith_map_same,
    zipWith_append_map, zipWith_append_map2, List.append_assoc, List.singleton_append,
    List.cons_append, List.nil_append, Function.comp_apply, Function.comp]
  have hG1 : ∀ rs : List (List Cell),
      getCol1 ⟨df.cols ++ ["delta", "fold_change", "log2FC", "direction"], rs⟩ "log2FC" =
        Except.ok (rs.map (fun r => r.getD (df.cols.length + 2) Cell.na)) := by
    intro rs
    exact @getCol1_of_single ⟨_, rs⟩ "log2FC" (df.cols.length + 2) hIdxL
  have hG2 : ∀ rs : List (List Cell),
      getCol1 ⟨df.cols ++ ["delta", "fold_change", "log2FC", "direction"], rs⟩ "direction" =
        Except.ok (rs.map (fun r => r.getD (df.cols.length + 3) Cell.na)) := by
    intro rs
    exact @getCol1_of_single ⟨_, rs⟩ "direction" (df.cols.length + 3) hIdxD
  simp only [hG1, hG2, exceptBindOk, List.map_map, Function.comp_def]
  have hkeys :
      (df.rows.map (fun x =>
        cellAbs ((x ++ [cellSub (x.getD ti Cell.na) (x.getD ci Cell.na),
          cellDiv (cellAddR (x.getD ti Cell.na) eps) (cellAddR (x.getD ci Cell.na) eps),
          cellLog2 (cellDiv (cellAddR (x.getD ti Cell.na) eps) (cellAddR (x.getD ci Cell.na) eps)),
          directionOf (cellLog2 (cellDiv (cellAddR (x.getD ti Cell.na) eps)
            (cellAddR (x.getD ci Cell.na) eps)))]).getD (df.cols.length + 2) Cell.na))) =
      df.rows.map (fun x =>
        cellAbs (cellLog2 (cellDiv (cellAddR (x.getD ti Cell.na) eps)
          (cellAddR (x.getD ci Cell.na) eps)))) := by
    apply List.map_congr_left
    intro r hrr
    rw [getD_append_off r _ _ 2 (hlen r hrr)]
    rfl
  simp only [diffRows, extendRow, rowFold, rowKey, dirCount, addedNames]
  rw [hkeys]
  simp only [← List.countP_eq_length_filter, List.countP_map, Function.comp_def,
    List.length_map]
  rfl

theorem diffRows_perm (df : DataFrame) (eps : ℝ) (ci ti : Nat) :
    List.Perm (diffRows df eps ci ti) (df.rows.map (extendRow eps ci ti)) := by
  unfold diffRows
  have h := (sortIdx_perm (df.rows.map (rowKey eps ci ti))).map
    (fun i => (df.rows.map (extendRow eps ci ti)).getD i [])
  refine h.trans (List.Perm.of_eq ?_)
  have h3 := map_getD_range (df.rows.map (extendRow eps ci ti)) ([] : List Cell)
  rw [List.length_map] at h3
  convert h3 using 2
  simp

theorem diffRows_length (df : DataFrame) (eps : ℝ) (ci ti : Nat) :
    (diffRows df eps ci ti).length = df.rows.length := by
  rw [(diffRows_perm df eps ci ti).length_eq, List.length_map]

theorem mem_diffRows {df : DataFrame} {eps : ℝ} {ci ti : Nat} {r : List Cell} :
    r ∈ diffRows df eps ci ti ↔ ∃ r0 ∈ df.rows, r = extendRow eps ci ti r0 := by
  rw [(diffRows_perm df eps ci ti).mem_iff, List.mem_map]
  constructor
  · rintro ⟨r0, h0, h1⟩
    exact ⟨r0, h0, h1.symm⟩
  · rintro ⟨r0, h0, h1⟩
    exact ⟨r0, h0, h1.symm⟩

theorem okInput_elim {df : DataFrame} (h : okInput df) :
    ∃ ci ti, colIdxs df "ctrl" = [ci] ∧ colIdxs df "treat" = [ti] ∧
      (colCells df ci).any cellIsStr = false ∧ (colCells df ti).any cellIsStr = false ∧
      df.rows.all (fun r => r.length == df.cols.length) = true ∧
      addedNames.all (fun n => !(df.cols.contains n)) = true := by
  obtain ⟨hc, ht, hstr, hrect, hfresh⟩ := h
  obtain ⟨ci, hci⟩ := List.length_eq_one.mp hc
  obtain ⟨ti, hti⟩ := List.length_eq_one.mp ht
  refine ⟨ci, ti, hci, hti, ?_, ?_, hrect, hfresh⟩
  · have := List.all_eq_true.mp hstr ci (by rw [hci, hti]; simp)
    simpa using this
  · have := List.all_eq_true.mp hstr ti (by rw [hci, hti]; simp)
    simpa using this

/-- The semantics of the direction label as a function of the log2FC cell:
`up` exactly on values at least 1 (infinity included), `down` exactly on
values at most -1 (negative infinity included), `unchanged` otherwise, and
in particular on NaN. -/
theorem directionOf_spec (l : Cell) :
    (directionOf l = Cell.str "up" ↔ ((∃ x : ℝ, l = Cell.num x ∧ 1 ≤ x) ∨ l = Cell.pinf)) ∧
    (directionOf l = Cell.str "down" ↔
      ((∃ x : ℝ, l = Cell.num x ∧ x ≤ -1) ∨ l = Cell.ninf)) ∧
    (l = Cell.na → directionOf l = Cell.str "unchanged") ∧
    (directionOf l = Cell.str "up" ∨ directionOf l = Cell.str "down" ∨
      directionOf l = Cell.str "unchanged") := by
  cases l with
  | na => simp [directionOf, cellGeB, cellLeB]
  | str s => simp [directionOf, cellGeB, cellLeB]
  | pinf => simp [directionOf, cellGeB, cellLeB]
  | ninf => simp [directionOf, cellGeB, cellLeB]
  | num x =>
    by_cases h1 : x ≤ -1
    · have h2 : ¬ (1 : ℝ) ≤ x := by linarith
      simp [directionOf, cellGeB, cellLeB, h1, h2]
    · by_cases h2 : (1 : ℝ) ≤ x
      · simp [directionOf, cellGeB, cellLeB, h1, h2]
      · simp [directionOf, cellGeB, cellLeB, h1, h2]

theorem extendRow_getD_two {r0 : List Cell} {n : Nat} (eps : ℝ) (ci ti : Nat)
    (hlen : r0.length = n) :
    (extendRow eps ci ti r0).getD (n + 2) Cell.na = cellLog2 (rowFold eps ci ti r0) := by
  unfold extendRow
  rw [getD_append_off r0 _ _ 2 hlen]
  rfl

theorem extendRow_getD_three {r0 : List Cell} {n : Nat} (eps : ℝ) (ci ti : Nat)
    (hlen : r0.length = n) :
    (extendRow eps ci ti r0).getD (n + 3) Cell.na =
      directionOf (cellLog2 (rowFold eps ci ti r0)) := by
  unfold extendRow
  rw [getD_append_off r0 _ _ 3 hlen]
  rfl

theorem extendRow_getD_zero {r0 : List Cell} {n : Nat} (eps : ℝ) (ci ti : Nat)
    (hlen : r0.length = n) :
    (extendRow eps ci ti r0).getD (n + 0) Cell.na =
      cellSub (r0.getD ti Cell.na) (r0.getD ci Cell.na) := by
  unfold extendRow
  rw [getD_append_off r0 _ _ 0 hlen]
  rfl

theorem extendRow_getD_one {r0 : List Cell} {n : Nat} (eps : ℝ) (ci ti : Nat)
    (hlen : r0.length = n) :
    (extendRow eps ci ti r0).getD (n + 1) Cell.na = rowFold eps ci ti r0 := by
  unfold extendRow
  rw [getD_append_off r0 _ _ 1 hlen]
  rfl

theorem rows_length_of_all {df : DataFrame} {r0 : List Cell}
    (h4 : df.rows.all (fun r => r.length == df.cols.length) = true) (hr0 : r0 ∈ df.rows) :
    r0.length = df.cols.length := by
  have := List.all_eq_true.mp h4 r0 hr0
  simpa using this

/-- C1: for every table in the spec's input domain (ctrl and treat present
once, numeric, rectangular, result names fresh) and every eps, compute_diff
succeeds and labels each output row `up` exactly when its log2FC cell is a
number at least 1 (or infinity), `down` exactly when it is a number at most
-1 (or negative infinity), and `unchanged` otherwise; in particular a NaN
log2FC cell, whose both threshold comparisons are false, yields
`unchanged`. -/
theorem claim_C1 (df : DataFrame) (eps : ℝ) (h : okInput df) :
    ∃ res s, compute_diff df eps = Except.ok (res, s) ∧
      ∀ r ∈ res.rows,
        (r.getD (df.cols.length + 3) Cell.na = Cell.str "up" ↔
          ((∃ x : ℝ, r.getD (df.cols.length + 2) Cell.na = Cell.num x ∧ 1 ≤ x) ∨
            r.getD (df.cols.length + 2) Cell.na = Cell.pinf)) ∧
        (r.getD (df.cols.length + 3) Cell.na = Cell.str "down" ↔
          ((∃ x : ℝ, r.getD (df.cols.length + 2) Cell.na = Cell.num x ∧ x ≤ -1) ∨
            r.getD (df.cols.length + 2) Cell.na = Cell.ninf)) ∧
        (r.getD (df.cols.length + 2) Cell.na = Cell.na →
          r.getD (df.cols.length + 3) Cell.na = Cell.str "unchanged") ∧
        (r.getD (df.cols.length + 3) Cell.na = Cell.str "up" ∨
          r.getD (df.cols.length + 3) Cell.na = Cell.str "down" ∨
          r.getD (df.cols.length + 3) Cell.na = Cell.str "unchanged") := by
  obtain ⟨ci, ti, hci, hti, h3c, h3t, h4, h5⟩ := okInput_elim h
  refine ⟨_, _, compute_diff_ok df eps ci ti hci hti h3c h3t h4 h5, ?_⟩
  intro r hrmem
  obtain ⟨r0, hr0, rfl⟩ := mem_diffRows.mp hrmem
  have hlen := rows_length_of_all h4 hr0
  rw [extendRow_getD_two eps ci ti hlen, extendRow_getD_three eps ci ti hlen]
  exact directionOf_spec (cellLog2 (rowFold eps ci ti r0))

/-- Witness for C1: the concrete one-row table with ctrl = treat = 0. -/
theorem claim_C1_witness :
    ∃ res s, compute_diff tblZeroes (1e-9) = Except.ok (res, s) ∧
      ∀ r ∈ res.rows,
        (r.getD (tblZeroes.cols.length + 3) Cell.na = Cell.str "up" ↔
          ((∃ x : ℝ, r.getD (tblZeroes.cols.length + 2) Cell.na = Cell.num x ∧ 1 ≤ x) ∨
            r.getD (tblZeroes.cols.length + 2) Cell.na = Cell.pinf)) ∧
        (r.getD (tblZeroes.cols.length + 3) Cell.na = Cell.str "down" ↔
          ((∃ x : ℝ, r.getD (tblZeroes.cols.length + 2) Cell.na = Cell.num x ∧ x ≤ -1) ∨
            r.getD (tblZeroes.cols.length + 2) Cell.na = Cell.ninf)) ∧
        (r.getD (tblZeroes.cols.length + 2) Cell.na = Cell.na →
          r.getD (tblZeroes.cols.length + 3) Cell.na = Cell.str "unchanged") ∧
        (r.getD (tblZeroes.cols.length + 3) Cell.na = Cell.str "up" ∨
          r.getD (tblZeroes.cols.length + 3) Cell.na = Cell.str "down" ∨
          r.getD (tblZeroes.cols.length + 3) Cell.na = Cell.str "unchanged") :=
  claim_C1 tblZeroes (1e-9) (by decide)

theorem getD_append_left_cells (r L : List Cell) (k : Nat) (hk : k < r.length) :
    (r ++ L).getD k Cell.na = r.getD k Cell.na := by
  simp [List.getD_eq_getElem?_getD, List.getElem?_append_left hk]

theorem idx_lt_of_colIdxs {df : DataFrame} {name : String} {i : Nat}
    (h : colIdxs df name = [i]) : i < df.cols.length := by
  have : i ∈ colIdxsL df.cols name := by
    rw [show colIdxsL df.cols name = colIdxs df name from rfl, h]
    simp
  exact (mem_colIdxsL.mp this).1

/-- C2: in the spec's input domain compute_diff succeeds and every output
row carries delta = treat - ctrl, fold_change = (treat + eps) / (ctrl + eps)
with eps = 1e-9, and log2FC = log2(fold_change), with no restriction on zero
or negative inputs; and on the concrete table with ctrl = treat = 0 the
single output row has fold_change = 1, log2FC = 0 and direction
`unchanged`, with no division error. -/
theorem claim_C2 (df : DataFrame) (h : okInput df) :
    (∃ ci ti, colIdxs df "ctrl" = [ci] ∧ colIdxs df "treat" = [ti] ∧
      ∃ res s, compute_diff df (1e-9) = Except.ok (res, s) ∧
        ∀ r ∈ res.rows, ∀ x y : ℝ,
          r.getD ci Cell.na = Cell.num x → r.getD ti Cell.na = Cell.num y →
            r.getD (df.cols.length + 0) Cell.na = Cell.num (y - x) ∧
            (x + 1e-9 ≠ 0 →
              r.getD (df.cols.length + 1) Cell.na = Cell.num ((y + 1e-9) / (x + 1e-9))) ∧
            (x + 1e-9 ≠ 0 → 0 < (y + 1e-9) / (x + 1e-9) →
              r.getD (df.cols.length + 2) Cell.na =
                Cell.num (Real.logb 2 ((y + 1e-9) / (x + 1e-9))))) ∧
    (∃ res s, compute_diff tblZeroes (1e-9) = Except.ok (res, s) ∧
      res.rows.length = 1 ∧
      ∀ r ∈ res.rows,
        r.getD 4 Cell.na = Cell.num 1 ∧ r.getD 5 Cell.na = Cell.num 0 ∧
        r.getD 6 Cell.na = Cell.str "unchanged") := by
  constructor
  · obtain ⟨ci, ti, hci, hti, h3c, h3t, h4, h5⟩ := okInput_elim h
    refine ⟨ci, ti, hci, hti, _, _, compute_diff_ok df (1e-9) ci ti hci hti h3c h3t h4 h5, ?_⟩
    intro r hrmem x y hx hy
    obtain ⟨r0, hr0, rfl⟩ := mem_diffRows.mp hrmem
    have hlen := rows_length_of_all h4 hr0
    have hcix : ci < r0.length := by
      rw [hlen]
      exact idx_lt_of_colIdxs hci
    have htix : ti < r0.length := by
      rw [hlen]
      exact idx_lt_of_colIdxs hti
    rw [extendRow] at hx hy
    rw [getD_append_left_cells _ _ _ hcix] at hx
    rw [getD_append_left_cells _ _ _ htix] at hy
    have hfold : rowFold (1e-9) ci ti r0 = cellDiv (Cell.num (y + 1e-9)) (Cell.num (x + 1e-9)) := by
      rw [rowFold, hx, hy]
      rfl
    refine ⟨?_, ?_, ?_⟩
    · rw [extendRow_getD_zero (1e-9) ci ti hlen, hx, hy]
      rfl
    · intro hne
      rw [extendRow_getD_one (1e-9) ci ti hlen, hfold]
      simp [cellDiv, hne]
    · intro hne hpos
      rw [extendRow_getD_two (1e-9) ci ti hlen, hfold]
      simp [cellDiv, hne, cellLog2, hpos]
  · have e1 : (0 : ℝ) + 1e-9 ≠ 0 := by norm_num
    have hfold : rowFold (1e-9) 1 2 [Cell.str "G", Cell.num 0, Cell.num 0] = Cell.num 1 := by
      rw [rowFold]
      show cellDiv (cellAddR (Cell.num 0) (1e-9)) (cellAddR (Cell.num 0) (1e-9)) = Cell.num 1
      rw [cellAddR]
      rw [cellDiv]
      simp only [if_neg e1]
      rw [div_self e1]
    have hlog : cellLog2 (Cell.num 1) = Cell.num 0 := by
      rw [cellLog2]
      simp [Real.logb_one]
    have hdir : directionOf (Cell.num 0) = Cell.str "unchanged" := by
      have b1 : cellLeB (Cell.num 0) (-1) = false := by
        simp [cellLeB]
      have b2 : cellGeB (Cell.num 0) 1 = false := by
        simp [cellGeB]
      rw [directionOf, b1, b2]
      simp
    refine ⟨_, _, compute_diff_ok tblZeroes (1e-9) 1 2 (by decide) (by decide) (by decide)
      (by decide) (by decide) (by decide), ?_, ?_⟩
    · rw [diffRows_length]
      rfl
    · intro r hrmem
      obtain ⟨r0, hr0, rfl⟩ := mem_diffRows.mp hrmem
      have hr0' : r0 = [Cell.str "G", Cell.num 0, Cell.num 0] := by
        have : r0 ∈ tblZeroes.rows := hr0
        simpa [tblZeroes] using this
      subst hr0'
      have hlen : ([Cell.str "G", Cell.num 0, Cell.num 0] : List Cell).length = 3 := rfl
      refine ⟨?_, ?_, ?_⟩
      · have := extendRow_getD_one (1e-9) 1 2 hlen
        rw [show (3 : Nat) + 1 = 4 from rfl] at this
        rw [this, hfold]
      · have := extendRow_getD_two (1e-9) 1 2 hlen
        rw [show (3 : Nat) + 2 = 5 from rfl] at this
        rw [this, hfold, hlog]
      · have := extendRow_getD_three (1e-9) 1 2 hlen
        rw [show (3 : Nat) + 3 = 6 from rfl] at this
        rw [this, hfold, hlog, hdir]

/-- Witness for C2: the two-row tie table satisfies the input-domain
hypothesis. -/
theorem claim_C2_witness :
    (∃ ci ti, colIdxs tblTie "ctrl" = [ci] ∧ colIdxs tblTie "treat" = [ti] ∧
      ∃ res s, compute_diff tblTie (1e-9) = Except.ok (res, s) ∧
        ∀ r ∈ res.rows, ∀ x y : ℝ,
          r.getD ci Cell.na = Cell.num x → r.getD ti Cell.na = Cell.num y →
            r.getD (tblTie.cols.length + 0) Cell.na = Cell.num (y - x) ∧
            (x + 1e-9 ≠ 0 →
              r.getD (tblTie.cols.length + 1) Cell.na = Cell.num ((y + 1e-9) / (x + 1e-9))) ∧
            (x + 1e-9 ≠ 0 → 0 < (y + 1e-9) / (x + 1e-9) →
              r.getD (tblTie.cols.length + 2) Cell.na =
                Cell.num (Real.logb 2 ((y + 1e-9) / (x + 1e-9))))) ∧
    (∃ res s, compute_diff tblZeroes (1e-9) = Except.ok (res, s) ∧
      res.rows.length = 1 ∧
      ∀ r ∈ res.rows,
        r.getD 4 Cell.na = Cell.num 1 ∧ r.getD 5 Cell.na = Cell.num 0 ∧
        r.getD 6 Cell.na = Cell.str "unchanged") :=
  claim_C2 tblTie (by decide)

theorem dirCount_eval (df : DataFrame) (eps : ℝ) (ci ti : Nat) (s : String)
    (h4 : df.rows.all (fun r => r.length == df.cols.length) = true) :
    dirCount df.cols.length (diffRows df eps ci ti) s =
      List.countP (fun r => cellEqStr (directionOf (cellLog2 (rowFold eps ci ti r))) s)
        df.rows := by
  unfold dirCount
  rw [← List.countP_eq_length_filter]
  rw [(diffRows_perm df eps ci ti).countP_eq]
  rw [List.countP_map]
  apply List.countP_congr
  intro r hrr
  have hlen := rows_length_of_all h4 hrr
  rw [Function.comp_apply, extendRow_getD_three eps ci ti hlen]

/-- C9: the summary string of compute_diff has the exact reported form with
total equal to the result row count and up/down equal to the counts of
result rows labelled `up` and `down`; on the concrete five-row table with
two up, one down and two unchanged rows it reads total 5, up 2, down 1. -/
theorem claim_C9 (df : DataFrame) (eps : ℝ) (h : okInput df) :
    (∃ res s, compute_diff df eps = Except.ok (res, s) ∧
      res.rows.length = df.rows.length ∧
      s = "共 " ++ toString res.rows.length ++ " 基因；|log2FC|>=1 上調 " ++
        toString (dirCount df.cols.length res.rows "up") ++ "、下調 " ++
        toString (dirCount df.cols.length res.rows "down")) ∧
    (∃ res s, compute_diff tblFive (1e-9) = Except.ok (res, s) ∧
      s = "共 5 基因；|log2FC|>=1 上調 2、下調 1") := by
  constructor
  · obtain ⟨ci, ti, hci, hti, h3c, h3t, h4, h5⟩ := okInput_elim h
    exact ⟨_, _, compute_diff_ok df eps ci ti hci hti h3c h3t h4 h5,
      diffRows_length df eps ci ti, rfl⟩
  · have hb2 : (1 : ℝ) < 2 := one_lt_two
    have eA : (1 : ℝ) + 1e-9 ≠ 0 := by norm_num
    have eC : (4 : ℝ) + 1e-9 ≠ 0 := by norm_num
    have eE : (2 : ℝ) + 1e-9 ≠ 0 := by norm_num
    -- row A: ctrl 1 treat 3, up
    have hfA : rowFold (1e-9) 1 2 [Cell.str "A", Cell.num 1, Cell.num 3] =
        Cell.num ((3 + 1e-9) / (1 + 1e-9)) := by
      show cellDiv (cellAddR (Cell.num 3) (1e-9)) (cellAddR (Cell.num 1) (1e-9)) = _
      rw [cellAddR, cellAddR, cellDiv]
      simp only [if_neg eA]
    have hposA : (0 : ℝ) < (3 + 1e-9) / (1 + 1e-9) := by positivity
    have hgeA : (1 : ℝ) ≤ Real.logb 2 ((3 + 1e-9) / (1 + 1e-9)) := by
      rw [Real.le_logb_iff_rpow_le hb2 hposA, Real.rpow_one]
      rw [le_div_iff₀ (by norm_num : (0 : ℝ) < 1 + 1e-9)]
      norm_num
    have hdirA : directionOf (cellLog2 (rowFold (1e-9) 1 2
        [Cell.str "A", Cell.num 1, Cell.num 3])) = Cell.str "up" := by
      rw [hfA, cellLog2]
      simp only [if_pos hposA]
      have b1 : cellLeB (Cell.num (Real.logb 2 ((3 + 1e-9) / (1 + 1e-9)))) (-1) = false := by
        simp only [cellLeB, decide_eq_false_iff_not]
        intro hcon
        linarith
      have b2 : cellGeB (Cell.num (Real.logb 2 ((3 + 1e-9) / (1 + 1e-9)))) 1 = true := by
        simp [cellGeB, hgeA]
      rw [directionOf, b1, b2]
      simp
    -- row B: ctrl 1 treat 5, up
    have hfB : rowFold (1e-9) 1 2 [Cell.str "B", Cell.num 1, Cell.num 5] =
        Cell.num ((5 + 1e-9) / (1 + 1e-9)) := by
      show cellDiv (cellAddR (Cell.num 5) (1e-9)) (cellAddR (Cell.num 1) (1e-9)) = _
      rw [cellAddR, cellAddR, cellDiv]
      simp only [if_neg eA]
    have hposB : (0 : ℝ) < (5 + 1e-9) / (1 + 1e-9) := by positivity
    have hgeB : (1 : ℝ) ≤ Real.logb 2 ((5 + 1e-9) / (1 + 1e-9)) := by
      rw [Real.le_logb_iff_rpow_le hb2 hposB, Real.rpow_one]
      rw [le_div_iff₀ (by norm_num : (0 : ℝ) < 1 + 1e-9)]
      norm_num
    have hdirB : directionOf (cellLog2 (rowFold (1e-9) 1 2
        [Cell.str "B", Cell.num 1, Cell.num 5])) = Cell.str "up" := by
      rw [hfB, cellLog2]
      simp only [if_pos hposB]
      have b1 : cellLeB (Cell.num (Real.logb 2 ((5 + 1e-9) / (1 + 1e-9)))) (-1) = false := by
        simp only [cellLeB, decide_eq_false_iff_not]
        intro hcon
        linarith
      have b2 : cellGeB (Cell.num (Real.logb 2 ((5 + 1e-9) / (1 + 1e-9)))) 1 = true := by
        simp [cellGeB, hgeB]
      rw [directionOf, b1, b2]
      simp
    -- row C: ctrl 4 treat 1, down
    have hfC : rowFold (1e-9) 1 2 [Cell.str "C", Cell.num 4, Cell.num 1] =
        Cell.num ((1 + 1e-9) / (4 + 1e-9)) := by
      show cellDiv (cellAddR (Cell.num 1) (1e-9)) (cellAddR (Cell.num 4) (1e-9)) = _
      rw [cellAddR, cellAddR, cellDiv]
      simp only [if_neg eC]
    have hposC : (0 : ℝ) < (1 + 1e-9) / (4 + 1e-9) := by positivity
    have hleC : Real.logb 2 ((1 + 1e-9) / (4 + 1e-9)) ≤ -1 := by
      rw [Real.logb_le_iff_le_rpow hb2 hposC, Real.rpow_neg_one]
      rw [div_le_iff₀ (by norm_num : (0 : ℝ) < 4 + 1e-9)]
      norm_num
    have hdirC : directionOf (cellLog2 (rowFold (1e-9) 1 2
        [Cell.str "C", Cell.num 4, Cell.num 1])) = Cell.str "down" := by
      rw [hfC, cellLog2]
      simp only [if_pos hposC]
      have b1 : cellLeB (Cell.num (Real.logb 2 ((1 + 1e-9) / (4 + 1e-9)))) (-1) = true := by
        simp [cellLeB, hleC]
      rw [directionOf, b1]
      simp
    -- row D: ctrl 1 treat 1, unchanged
    have hfD : rowFold (1e-9) 1 2 [Cell.str "D", Cell.num 1, Cell.num 1] = Cell.num 1 := by
      show cellDiv (cellAddR (Cell.num 1) (1e-9)) (cellAddR (Cell.num 1) (1e-9)) = _
      rw [cellAddR, cellDiv]
      simp only [if_neg eA]
      rw [div_self eA]
    have hdir0 : directionOf (Cell.num 0) = Cell.str "unchanged" := by
      have b1 : cellLeB (Cell.num 0) (-1) = false := by
        simp [cellLeB]
      have b2 : cellGeB (Cell.num 0) 1 = false := by
        simp [cellGeB]
      rw [directionOf, b1, b2]
      simp
    have hlog1 : cellLog2 (Cell.num 1) = Cell.num 0 := by
      rw [cellLog2]
      simp [Real.logb_one]
    have hdirD : directionOf (cellLog2 (rowFold (1e-9) 1 2
        [Cell.str "D", Cell.num 1, Cell.num 1])) = Cell.str "unchanged" := by
      rw [hfD, hlog1, hdir0]
    -- row E: ctrl 2 treat 2, unchanged
    have hfE : rowFold (1e-9) 1 2 [Cell.str "E", Cell.num 2, Cell.num 2] = Cell.num 1 := by
      show cellDiv (cellAddR (Cell.num 2) (1e-9)) (cellAddR (Cell.num 2) (1e-9)) = _
      rw [cellAddR, cellDiv]
      simp only [if_neg eE]
      rw [div_self eE]
    have hdirE : directionOf (cellLog2 (rowFold (1e-9) 1 2
        [Cell.str "E", Cell.num 2, Cell.num 2])) = Cell.str "unchanged" := by
      rw [hfE, hlog1, hdir0]
    have h4five : tblFive.rows.all (fun r => r.length == tblFive.cols.length) = true := by
      decide
    have hup : dirCount tblFive.cols.length (diffRows tblFive (1e-9) 1 2) "up" = 2 := by
      rw [show tblFive.cols.length = 3 from rfl] at *
      rw [show (3 : Nat) = tblFive.cols.length from rfl]
      rw [dirCount_eval tblFive (1e-9) 1 2 "up" h4five]
      show List.countP _ tblFive.rows = 2
      simp only [tblFive, List.countP_cons, List.countP_nil, hdirA, hdirB, hdirC, hdirD, hdirE]
      rfl
    have hdown : dirCount tblFive.cols.length (diffRows tblFive (1e-9) 1 2) "down" = 1 := by
      rw [dirCount_eval tblFive (1e-9) 1 2 "down" h4five]
      show List.countP _ tblFive.rows = 1
      simp only [tblFive, List.countP_cons, List.countP_nil, hdirA, hdirB, hdirC, hdirD, hdirE]
      rfl
    refine ⟨_, _, compute_diff_ok tblFive (1e-9) 1 2 (by decide) (by decide) (by decide)
      (by decide) (by decide) (by decide), ?_⟩
    rw [diffRows_length, hup, hdown]
    rfl

/-- Witness for C9: the tie table satisfies the input-domain hypothesis. -/
theorem claim_C9_witness :
    (∃ res s, compute_diff tblTie (1e-9) = Except.ok (res, s) ∧
      res.rows.length = tblTie.rows.length ∧
      s = "共 " ++ toString res.rows.length ++ " 基因；|log2FC|>=1 上調 " ++
        toString (dirCount tblTie.cols.length res.rows "up") ++ "、下調 " ++
        toString (dirCount tblTie.cols.length res.rows "down")) ∧
    (∃ res s, compute_diff tblFive (1e-9) = Except.ok (res, s) ∧
      s = "共 5 基因；|log2FC|>=1 上調 2、下調 1") :=
  claim_C9 tblTie (1e-9) (by decide)

/-- C7: compute_diff errors exactly when ctrl or treat is absent; on the
spec's input domain with both present it returns normally; a zero-row table
(with or without the gene column) returns an empty result and a summary
reporting zero counts, with no error. -/
theorem claim_C7 :
    (∀ df : DataFrame, ("ctrl" ∉ df.cols ∨ "treat" ∉ df.cols) →
      ∃ msg, compute_diff df (1e-9) = Except.error msg) ∧
    (∀ df : DataFrame, okInput df → ∀ eps : ℝ,
      ∃ res s, compute_diff df eps = Except.ok (res, s)) ∧
    (compute_diff tblZero (1e-9) = Except.ok
      (⟨["gene", "ctrl", "treat", "delta", "fold_change", "log2FC", "direction"], []⟩,
        mkSummary 0 0 0)) ∧
    (compute_diff tblNoGene (1e-9) = Except.ok
      (⟨["ctrl", "treat", "delta", "fold_change", "log2FC", "direction"], []⟩,
        mkSummary 0 0 0)) ∧
    mkSummary 0 0 0 = "共 0 基因；|log2FC|>=1 上調 0、下調 0" := by
  refine ⟨?_, ?_, by rfl, by rfl, by rfl⟩
  · intro df hmiss
    by_cases hc : "ctrl" ∈ df.cols
    · have ht : "treat" ∉ df.cols := by
        rcases hmiss with h | h
        · exact absurd hc h
        · exact h
      exact ⟨"compute_diff 需要欄位 treat", by simp [compute_diff, hc, ht]⟩
    · exact ⟨"compute_diff 需要欄位 ctrl", by simp [compute_diff, hc]⟩
  · intro df h eps
    obtain ⟨ci, ti, hci, hti, h3c, h3t, h4, h5⟩ := okInput_elim h
    exact ⟨_, _, compute_diff_ok df eps ci ti hci hti h3c h3t h4 h5⟩

/-- Witness for C7: a table missing ctrl errors, and the tie table
succeeds. -/
theorem claim_C7_witness :
    (∃ msg, compute_diff (⟨["treat"], []⟩ : DataFrame) (1e-9) = Except.error msg) ∧
    (∃ res s, compute_diff tblTie (1e-9) = Except.ok (res, s)) :=
  ⟨claim_C7.1 ⟨["treat"], []⟩ (Or.inl (by decide)),
   claim_C7.2.1 tblTie (by decide) (1e-9)⟩

/-- Counterexample for C10: on a table that already has a `delta` column,
compute_diff overwrites it in place, so the result has six columns, not the
seven the claim (input columns plus exactly four added) would require. -/
theorem claim_C10_counterexample :
    (compute_diff tblDeltaCol (1e-9)).toOption.map (fun p => p.1.cols) =
      some ["ctrl", "treat", "delta", "fold_change", "log2FC", "direction"] ∧
    (compute_diff tblDeltaCol (1e-9)).toOption.map (fun p => p.1.cols.length) ≠
      some (tblDeltaCol.cols.length + 4) := by
  constructor
  · rfl
  · intro hcon
    rw [show (compute_diff tblDeltaCol (1e-9)).toOption.map (fun p => p.1.cols.length) =
      some 6 from rfl] at hcon
    rw [show tblDeltaCol.cols.length + 4 = 7 from rfl] at hcon
    exact absurd (Option.some.inj hcon) (by decide)

/-- C10 amended: on tables whose columns avoid the four result names,
compute_diff appends exactly those four columns, every output row is some
input row with its cells unchanged followed by the four new cells, and the
multiset of original-column fragments of the output rows is a permutation
of the input rows. -/
theorem claim_C10_amended (df : DataFrame) (eps : ℝ) (h : okInput df) :
    ∃ res s, compute_diff df eps = Except.ok (res, s) ∧
      res.cols = df.cols ++ ["delta", "fold_change", "log2FC", "direction"] ∧
      List.Perm (res.rows.map (fun r => r.take df.cols.length)) df.rows ∧
      (∀ r ∈ res.rows, r.length = df.cols.length + 4) ∧
      (∀ r ∈ res.rows, ∃ r0 ∈ df.rows, r.take df.cols.length = r0) := by
  obtain ⟨ci, ti, hci, hti, h3c, h3t, h4, h5⟩ := okInput_elim h
  have htake : ∀ r0 ∈ df.rows, (extendRow eps ci ti r0).take df.cols.length = r0 := by
    intro r0 hr0
    have hlen := rows_length_of_all h4 hr0
    unfold extendRow
    rw [← hlen, List.take_left]
  refine ⟨_, _, compute_diff_ok df eps ci ti hci hti h3c h3t h4 h5, rfl, ?_, ?_, ?_⟩
  · have hperm := (diffRows_perm df eps ci ti).map (fun r => r.take df.cols.length)
    refine hperm.trans (List.Perm.of_eq ?_)
    rw [List.map_map]
    have heq : List.map ((fun r => List.take df.cols.length r) ∘ extendRow eps ci ti) df.rows =
        List.map id df.rows :=
      List.map_congr_left (fun r0 hr0 => htake r0 hr0)
    rw [heq, List.map_id]
  · intro r hrmem
    obtain ⟨r0, hr0, rfl⟩ := mem_diffRows.mp hrmem
    have hlen := rows_length_of_all h4 hr0
    unfold extendRow
    rw [List.length_append, hlen]
    rfl
  · intro r hrmem
    obtain ⟨r0, hr0, rfl⟩ := mem_diffRows.mp hrmem
    exact ⟨r0, hr0, htake r0 hr0⟩

/-- Witness for C10 amended: the tie table. -/
theorem claim_C10_amended_witness :
    ∃ res s, compute_diff tblTie (1e-9) = Except.ok (res, s) ∧
      res.cols = tblTie.cols ++ ["delta", "fold_change", "log2FC", "direction"] ∧
      List.Perm (res.rows.map (fun r => r.take tblTie.cols.length)) tblTie.rows ∧
      (∀ r ∈ res.rows, r.length = tblTie.cols.length + 4) ∧
      (∀ r ∈ res.rows, ∃ r0 ∈ tblTie.rows, r.take tblTie.cols.length = r0) :=
  claim_C10_amended tblTie (1e-9) (by decide)

theorem sortIdx_pair_eq (x : ℝ) : sortIdx [Cell.num x, Cell.num x] = [0, 1] := by
  have hr : ¬ sortRel [Cell.num x, Cell.num x] 0 1 := by
    intro hcon
    rcases hcon with h | ⟨_, h | ⟨_, h⟩⟩
    · exact lt_irrefl _ h
    · exact lt_irrefl _ h
    · exact Nat.not_succ_le_zero 0 h
  have h1 : List.insertionSort (sortRel [Cell.num x, Cell.num x]) [0, 1] = [1, 0] := by
    show List.orderedInsert _ 0 (List.insertionSort _ [1]) = [1, 0]
    rw [show List.insertionSort (sortRel [Cell.num x, Cell.num x]) [1] = [1] from rfl]
    show (if sortRel [Cell.num x, Cell.num x] 0 1 then [0, 1]
      else 1 :: List.orderedInsert (sortRel [Cell.num x, Cell.num x]) 0 []) = [1, 0]
    rw [if_neg hr]
    rfl
  show (List.insertionSort (sortRel [Cell.num x, Cell.num x])
      ((List.range ([Cell.num x, Cell.num x] : List Cell).length).filter
        (fun i => !(isNaKey ([Cell.num x, Cell.num x].getD i Cell.na))))).reverse ++
      ((List.range ([Cell.num x, Cell.num x] : List Cell).length).filter
        (fun i => isNaKey ([Cell.num x, Cell.num x].getD i Cell.na))) = [0, 1]
  rw [show (List.range ([Cell.num x, Cell.num x] : List Cell).length).filter
      (fun i => !(isNaKey ([Cell.num x, Cell.num x].getD i Cell.na))) = [0, 1] from rfl]
  rw [h1]
  rfl

/-- C4: on the spec input domain the result of compute_diff is the input
rows (each extended by the four result cells) reindexed by a permutation
that is pairwise ordered as pandas nargsort produces it: positions with NaN
`|log2FC|` keys come last in ascending original order, and among non-NaN
positions an earlier output position has a strictly larger key, or an equal
key and a smaller original index — the sort is stable descending, ties keep
the input order.  Concretely, the two equal-`|log2FC|` rows of the tie
table come out in input order, gene A before gene B. -/
theorem claim_C4 (df : DataFrame) (eps : ℝ) (h : okInput df) :
    (∃ ci ti, colIdxs df "ctrl" = [ci] ∧ colIdxs df "treat" = [ti] ∧
      ∃ res s, compute_diff df eps = Except.ok (res, s) ∧
        ∃ idxr : List Nat,
          List.Perm idxr (List.range df.rows.length) ∧
          idxr.Pairwise (sortedAfter (df.rows.map (rowKey eps ci ti))) ∧
          res.rows = idxr.map (fun i => (df.rows.map (extendRow eps ci ti)).getD i [])) ∧
    (compute_diff tblTie (1e-9)).toOption.map
        (fun p => p.1.rows.map (fun r => r.getD 0 Cell.na)) =
      some [Cell.str "A", Cell.str "B"] := by
  constructor
  · obtain ⟨ci, ti, hci, hti, h3c, h3t, h4, h5⟩ := okInput_elim h
    refine ⟨ci, ti, hci, hti, _, _, compute_diff_ok df eps ci ti hci hti h3c h3t h4 h5,
      sortIdx (df.rows.map (rowKey eps ci ti)), ?_, sortIdx_pairwise _, rfl⟩
    have hperm := sortIdx_perm (df.rows.map (rowKey eps ci ti))
    rwa [List.length_map] at hperm
  · have hco := compute_diff_ok tblTie (1e-9) 1 2 (by decide) (by decide) (by decide)
      (by decide) (by decide) (by decide)
    have eA : (1 : ℝ) + 1e-9 ≠ 0 := by norm_num
    have eB : (3 : ℝ) + 1e-9 ≠ 0 := by norm_num
    have hfA : rowFold (1e-9) 1 2 [Cell.str "A", Cell.num 1, Cell.num 3] =
        Cell.num ((3 + 1e-9) / (1 + 1e-9)) := by
      show cellDiv (cellAddR (Cell.num 3) (1e-9)) (cellAddR (Cell.num 1) (1e-9)) = _
      rw [cellAddR, cellAddR, cellDiv]
      simp only [if_neg eA]
    have hfB : rowFold (1e-9) 1 2 [Cell.str "B", Cell.num 3, Cell.num 1] =
        Cell.num ((1 + 1e-9) / (3 + 1e-9)) := by
      show cellDiv (cellAddR (Cell.num 1) (1e-9)) (cellAddR (Cell.num 3) (1e-9)) = _
      rw [cellAddR, cellAddR, cellDiv]
      simp only [if_neg eB]
    have hposA : (0 : ℝ) < (3 + 1e-9) / (1 + 1e-9) := by positivity
    have hposB : (0 : ℝ) < (1 + 1e-9) / (3 + 1e-9) := by positivity
    have hkA : rowKey (1e-9) 1 2 [Cell.str "A", Cell.num 1, Cell.num 3] =
        Cell.num |Real.logb 2 ((3 + 1e-9) / (1 + 1e-9))| := by
      rw [rowKey, show cellLog2 (rowFold (1e-9) 1 2 [Cell.str "A", Cell.num 1, Cell.num 3]) =
        cellLog2 (Cell.num ((3 + 1e-9) / (1 + 1e-9))) from by rw [hfA]]
      rw [cellLog2]
      simp only [if_pos hposA]
      rfl
    have hinv : ((1 : ℝ) + 1e-9) / (3 + 1e-9) = (((3 : ℝ) + 1e-9) / (1 + 1e-9))⁻¹ := by
      rw [inv_div]
    have hkB : rowKey (1e-9) 1 2 [Cell.str "B", Cell.num 3, Cell.num 1] =
        Cell.num |Real.logb 2 ((3 + 1e-9) / (1 + 1e-9))| := by
      rw [rowKey, show cellLog2 (rowFold (1e-9) 1 2 [Cell.str "B", Cell.num 3, Cell.num 1]) =
        cellLog2 (Cell.num ((1 + 1e-9) / (3 + 1e-9))) from by rw [hfB]]
      rw [cellLog2]
      simp only [if_pos hposB]
      show Cell.num |Real.logb 2 ((1 + 1e-9) / (3 + 1e-9))| = _
      rw [hinv, Real.logb_inv, abs_neg]
    have hkeys : tblTie.rows.map (rowKey (1e-9) 1 2) =
        [Cell.num |Real.logb 2 ((3 + 1e-9) / (1 + 1e-9))|,
         Cell.num |Real.logb 2 ((3 + 1e-9) / (1 + 1e-9))|] := by
      show [rowKey (1e-9) 1 2 [Cell.str "A", Cell.num 1, Cell.num 3],
            rowKey (1e-9) 1 2 [Cell.str "B", Cell.num 3, Cell.num 1]] = _
      rw [hkA, hkB]
    have hgB : (extendRow (1e-9) 1 2 [Cell.str "B", Cell.num 3, Cell.num 1]).getD 0 Cell.na =
        Cell.str "B" := by
      unfold extendRow
      rw [getD_append_left_cells _ _ 0 (by decide)]
      rfl
    have hgA : (extendRow (1e-9) 1 2 [Cell.str "A", Cell.num 1, Cell.num 3]).getD 0 Cell.na =
        Cell.str "A" := by
      unfold extendRow
      rw [getD_append_left_cells _ _ 0 (by decide)]
      rfl
    have hrows : (diffRows tblTie (1e-9) 1 2).map (fun r => r.getD 0 Cell.na) =
        [Cell.str "A", Cell.str "B"] := by
      unfold diffRows
      rw [hkeys, sortIdx_pair_eq]
      show [((tblTie.rows.map (extendRow (1e-9) 1 2)).getD 0 []).getD 0 Cell.na,
            ((tblTie.rows.map (extendRow (1e-9) 1 2)).getD 1 []).getD 0 Cell.na] = _
      rw [show (tblTie.rows.map (extendRow (1e-9) 1 2)).getD 0 [] =
        extendRow (1e-9) 1 2 [Cell.str "A", Cell.num 1, Cell.num 3] from rfl]
      rw [show (tblTie.rows.map (extendRow (1e-9) 1 2)).getD 1 [] =
        extendRow (1e-9) 1 2 [Cell.str "B", Cell.num 3, Cell.num 1] from rfl]
      rw [hgA, hgB]
    rw [hco]
    show some ((diffRows tblTie (1e-9) 1 2).map (fun r => r.getD 0 Cell.na)) = _
    rw [hrows]

/-- Witness for C4: the tie table satisfies the input-domain hypothesis. -/
theorem claim_C4_witness :
    (∃ ci ti, colIdxs tblTie "ctrl" = [ci] ∧ colIdxs tblTie "treat" = [ti] ∧
      ∃ res s, compute_diff tblTie (1e-9) = Except.ok (res, s) ∧
        ∃ idxr : List Nat,
          List.Perm idxr (List.range tblTie.rows.length) ∧
          idxr.Pairwise (sortedAfter (tblTie.rows.map (rowKey (1e-9) ci ti))) ∧
          res.rows = idxr.map
            (fun i => (tblTie.rows.map (extendRow (1e-9) ci ti)).getD i [])) ∧
    (compute_diff tblTie (1e-9)).toOption.map
        (fun p => p.1.rows.map (fun r => r.getD 0 Cell.na)) =
      some [Cell.str "A", Cell.str "B"] :=
  claim_C4 tblTie (1e-9) (by decide)

/-! ### normalize_columns characterization -/

theorem lookupAssoc_replace_ne {α : Type} (m : List (String × α)) (k x : String) (v : α)
    (hxk : x ≠ k) :
    lookupAssoc (m.map (fun p => if p.1 == k then (k, v) else p)) x = lookupAssoc m x := by
  have hkx : (k == x) = false := by
    simp
    exact fun hcon => hxk hcon.symm
  induction m with
  | nil => rfl
  | cons a m ih =>
    by_cases ha : (a.1 == k) = true
    · have hax : (a.1 == x) = false := by
        rw [beq_iff_eq] at ha
        simp [ha]
        exact fun hcon => hxk hcon.symm
      simp only [List.map_cons, lookupAssoc, if_pos ha, hkx, hax]
      simp only [Bool.false_eq_true, if_false]
      exact ih
    · have hab : (a.1 == k) = false := by
        simpa using ha
      simp only [List.map_cons, lookupAssoc, hab, Bool.false_eq_true, if_false]
      by_cases hax : (a.1 == x) = true
      · simp only [hax, if_true]
      · have hax' : (a.1 == x) = false := by
          simpa using hax
        simp only [hax', Bool.false_eq_true, if_false]
        exact ih

theorem lookupAssoc_replace_eq {α : Type} (m : List (String × α)) (k : String) (v : α)
    (hmem : m.any (fun p => p.1 == k) = true) :
    lookupAssoc (m.map (fun p => if p.1 == k then (k, v) else p)) k = some v := by
  induction m with
  | nil => simp at hmem
  | cons a m ih =>
    by_cases ha : (a.1 == k) = true
    · simp only [List.map_cons, lookupAssoc, if_pos ha]
      simp
    · have hab : (a.1 == k) = false := by
        simpa using ha
      have hmem' : m.any (fun p => p.1 == k) = true := by
        rw [List.any_cons, hab] at hmem
        simpa using hmem
      simp only [List.map_cons, lookupAssoc, hab, Bool.false_eq_true, if_false]
      exact ih hmem'

theorem lookupAssoc_append_new {α : Type} (m : List (String × α)) (k x : String) (v : α)
    (hmem : m.any (fun p => p.1 == k) = false) :
    lookupAssoc (m ++ [(k, v)]) x = if x = k then some v else lookupAssoc m x := by
  induction m with
  | nil =>
    rw [List.nil_append]
    by_cases hxk : x = k
    · subst hxk
      simp [lookupAssoc]
    · have hkx : (k == x) = false := by
        simp
        exact fun hcon => hxk hcon.symm
      simp [lookupAssoc, hkx, hxk]
  | cons a m ih =>
    rw [List.any_cons] at hmem
    have ha : (a.1 == k) = false := (Bool.or_eq_false_iff.mp hmem).1
    have hmem' : m.any (fun p => p.1 == k) = false := (Bool.or_eq_false_iff.mp hmem).2
    by_cases hax : (a.1 == x) = true
    · have hxk : x ≠ k := by
        rw [beq_iff_eq] at hax
        intro hcon
        rw [hcon] at hax
        rw [hax] at ha
        simp at ha
      rw [if_neg hxk]
      simp only [List.cons_append, lookupAssoc, hax, if_true]
    · have hax' : (a.1 == x) = false := by
        simpa using hax
      simp only [List.cons_append, lookupAssoc, hax', Bool.false_eq_true, if_false]
      exact ih hmem' 

theorem lookupAssoc_insertAssoc {α : Type} (m : List (String × α)) (k x : String) (v : α) :
    lookupAssoc (insertAssoc m k v) x = if x = k then some v else lookupAssoc m x := by
  unfold insertAssoc
  by_cases hmem : m.any (fun p => p.1 == k) = true
  · rw [if_pos hmem]
    by_cases hxk : x = k
    · subst hxk
      rw [if_pos rfl]
      exact lookupAssoc_replace_eq m x v hmem
    · rw [if_neg hxk]
      exact lookupAssoc_replace_ne m k x v hxk
  · rw [if_neg hmem]
    refine lookupAssoc_append_new m k x v ?_
    rwa [Bool.not_eq_true] at hmem

theorem lookup_foldl_alias (al : List String) (std x : String) :
    ∀ (cols : List String) (m : List (String × String)),
    lookupAssoc
        (cols.foldl (fun m2 c => if al.contains c then insertAssoc m2 c std else m2) m) x =
      if x ∈ cols ∧ al.contains x = true then some std else lookupAssoc m x := by
  intro cols
  induction cols with
  | nil =>
    intro m
    simp
  | cons c cols ih =>
    intro m
    rw [List.foldl_cons, ih]
    by_cases hxc : x ∈ cols ∧ al.contains x = true
    · rw [if_pos hxc, if_pos ⟨List.mem_cons_of_mem c hxc.1, hxc.2⟩]
    · rw [if_neg hxc]
      by_cases hac : al.contains c = true
      · rw [if_pos hac, lookupAssoc_insertAssoc]
        by_cases hxceq : x = c
        · subst hxceq
          rw [if_pos rfl, if_pos ⟨List.mem_cons_self x cols, hac⟩]
        · rw [if_neg hxceq]
          have hno : ¬(x ∈ c :: cols ∧ al.contains x = true) := by
            rintro ⟨hmem2, hal⟩
            rcases List.mem_cons.mp hmem2 with h | h
            · exact hxceq h
            · exact hxc ⟨h, hal⟩
          rw [if_neg hno]
      · rw [if_neg hac]
        have hno : ¬(x ∈ c :: cols ∧ al.contains x = true) := by
          rintro ⟨hmem2, hal⟩
          rcases List.mem_cons.mp hmem2 with h | h
          · rw [h] at hal
            exact hac hal
          · exact hxc ⟨h, hal⟩
        rw [if_neg hno]

theorem alias_disjoint_gc (y : String)
    (h1 : (["gene", "gene_id", "symbol", "Gene", "GENE"] : List String).contains y = true)
    (h2 : (["ctrl", "control", "CTRL", "Control", "ctl"] : List String).contains y = true) :
    False := by
  have hm : y ∈ (["gene", "gene_id", "symbol", "Gene", "GENE"] : List String) := by
    simpa using h1
  fin_cases hm <;> simp at h2

theorem alias_disjoint_gt (y : String)
    (h1 : (["gene", "gene_id", "symbol", "Gene", "GENE"] : List String).contains y = true)
    (h2 : (["treat", "treatment", "TREAT", "Treatment", "trt"] : List String).contains y = true) :
    False := by
  have hm : y ∈ (["gene", "gene_id", "symbol", "Gene", "GENE"] : List String) := by
    simpa using h1
  fin_cases hm <;> simp at h2

theorem alias_disjoint_ct (y : String)
    (h1 : (["ctrl", "control", "CTRL", "Control", "ctl"] : List String).contains y = true)
    (h2 : (["treat", "treatment", "TREAT", "Treatment", "trt"] : List String).contains y = true) :
    False := by
  have hm : y ∈ (["ctrl", "control", "CTRL", "Control", "ctl"] : List String) := by
    simpa using h1
  fin_cases hm <;> simp at h2

theorem lookup_buildColMap (cols : List String) (x : String) (hx : x ∈ cols) :
    (lookupAssoc (buildColMap cols) x).getD x = canonName x := by
  unfold buildColMap
  rw [show (COLUMN_ALIASES : List (String × List String)) =
    [("gene", ["gene", "gene_id", "symbol", "Gene", "GENE"]),
     ("ctrl", ["ctrl", "control", "CTRL", "Control", "ctl"]),
     ("treat", ["treat", "treatment", "TREAT", "Treatment", "trt"])] from rfl]
  rw [List.foldl_cons, List.foldl_cons, List.foldl_cons, List.foldl_nil]
  rw [lookup_foldl_alias, lookup_foldl_alias, lookup_foldl_alias]
  unfold canonName
  rw [show (COLUMN_ALIASES : List (String × List String)) =
    [("gene", ["gene", "gene_id", "symbol", "Gene", "GENE"]),
     ("ctrl", ["ctrl", "control", "CTRL", "Control", "ctl"]),
     ("treat", ["treat", "treatment", "TREAT", "Treatment", "trt"])] from rfl]
  by_cases hg : (["gene", "gene_id", "symbol", "Gene", "GENE"] : List String).contains x = true
  · have hc : ¬(["ctrl", "control", "CTRL", "Control", "ctl"] : List String).contains x = true :=
      fun h2 => alias_disjoint_gc x hg h2
    have ht : ¬(["treat", "treatment", "TREAT", "Treatment", "trt"] : List String).contains x
        = true :=
      fun h2 => alias_disjoint_gt x hg h2
    rw [if_neg (fun hand => ht hand.2), if_neg (fun hand => hc hand.2), if_pos ⟨hx, hg⟩]
    rw [List.find?_cons_of_pos _ (by simpa using hg)]
    rfl
  · by_cases hc : (["ctrl", "control", "CTRL", "Control", "ctl"] : List String).contains x = true
    · have ht : ¬(["treat", "treatment", "TREAT", "Treatment", "trt"] : List String).contains x
          = true :=
        fun h2 => alias_disjoint_ct x hc h2
      rw [if_neg (fun hand => ht hand.2), if_pos ⟨hx, hc⟩]
      rw [List.find?_cons_of_neg _ (by simpa using hg),
        List.find?_cons_of_pos _ (by simpa using hc)]
      rfl
    · by_cases ht : (["treat", "treatment", "TREAT", "Treatment", "trt"] : List String).contains x
          = true
      · rw [if_pos ⟨hx, ht⟩]
        rw [List.find?_cons_of_neg _ (by simpa using hg),
          List.find?_cons_of_neg _ (by simpa using hc),
          List.find?_cons_of_pos _ (by simpa using ht)]
        rfl
      · rw [if_neg (fun hand => ht hand.2), if_neg (fun hand => hc hand.2),
          if_neg (fun hand => hg hand.2)]
        rw [List.find?_cons_of_neg _ (by simpa using hg),
          List.find?_cons_of_neg _ (by simpa using hc),
          List.find?_cons_of_neg _ (by simpa using ht)]
        rfl

/-- C3 amended: `normalize_columns` renames every column whose name is an
alias to its canonical name and keeps everything else, leaving the rows
untouched.  In particular, when two distinct columns alias to the same
canonical name, both are renamed to it and both are retained with their
original values and order — there is no overwriting and no single
last-wins column. -/
theorem claim_C3_amended (df : DataFrame) :
    normalize_columns df = ⟨df.cols.map canonName, df.rows⟩ := by
  show (⟨df.cols.map (fun c => (lookupAssoc (buildColMap df.cols) c).getD c), df.rows⟩ :
    DataFrame) = _
  have hcols : df.cols.map (fun c => (lookupAssoc (buildColMap df.cols) c).getD c) =
      df.cols.map canonName :=
    List.map_congr_left (fun c hc => lookup_buildColMap df.cols c hc)
  rw [hcols]

/-- Counterexample for C3: with input columns `ctrl` and `control` (both
aliases of `ctrl`), normalization produces two columns named `ctrl` — not a
single column carrying the later column's values — and the row values are
unchanged. -/
theorem claim_C3_counterexample :
    (normalize_columns tblCollide).cols = ["ctrl", "ctrl"] ∧
    (normalize_columns tblCollide).cols.count "ctrl" = 2 ∧
    ¬((normalize_columns tblCollide).cols.count "ctrl" = 1) ∧
    (normalize_columns tblCollide).rows = tblCollide.rows := by
  refine ⟨by decide, by decide, by decide, rfl⟩

/-! ### clean_data machinery -/

theorem cellKeyEqB_refl (a : Cell) : cellKeyEqB a a = true := by
  cases a <;> simp [cellKeyEqB]

theorem cellKeyEqB_trans {a b c : Cell} (h1 : cellKeyEqB a b = true)
    (h2 : cellKeyEqB b c = true) : cellKeyEqB a c = true := by
  cases a <;> cases b <;> cases c <;> simp_all [cellKeyEqB]

theorem keyEqB_singleton (a b : Cell) : keyEqB [a] [b] = cellKeyEqB a b := by
  simp [keyEqB]

theorem geneKey_eqB (a b : List Cell) :
    keyEqB (geneKey a) (geneKey b) = cellKeyEqB (a.getD 0 Cell.na) (b.getD 0 Cell.na) :=
  keyEqB_singleton _ _

theorem dedupGo_sublist (key : List Cell → List Cell) :
    ∀ (l : List (List Cell)) (seen : List (List Cell)),
      List.Sublist (dedupGo key seen l) l := by
  intro l
  induction l with
  | nil =>
    intro seen
    rw [dedupGo]
  | cons r rest ih =>
    intro seen
    rw [dedupGo]
    by_cases hcond : (seen.any (fun k => keyEqB k (key r))) = true
    · rw [if_pos hcond]
      exact (ih seen).trans (List.sublist_cons_self r rest)
    · rw [if_neg hcond]
      exact (ih (key r :: seen)).cons₂ r

theorem dedupGo_not_seen :
    ∀ (l seen : List (List Cell)), ∀ r ∈ dedupGo geneKey seen l,
      seen.any (fun k => keyEqB k (geneKey r)) = false := by
  intro l
  induction l with
  | nil =>
    intro seen r hr
    rw [dedupGo] at hr
    simp at hr
  | cons x rest ih =>
    intro seen r hr
    rw [dedupGo] at hr
    by_cases hcond : (seen.any (fun k => keyEqB k (geneKey x))) = true
    · rw [if_pos hcond] at hr
      exact ih seen r hr
    · rw [if_neg hcond] at hr
      rcases List.mem_cons.mp hr with h | h
      · subst h
        rwa [Bool.not_eq_true] at hcond
      · have := ih (geneKey x :: seen) r h
        rw [List.any_cons] at this
        exact (Bool.or_eq_false_iff.mp this).2

theorem dedupGo_pairwise :
    ∀ (l seen : List (List Cell)),
      (dedupGo geneKey seen l).Pairwise
        (fun a b => keyEqB (geneKey a) (geneKey b) = false) := by
  intro l
  induction l with
  | nil =>
    intro seen
    rw [dedupGo]
    exact List.Pairwise.nil
  | cons x rest ih =>
    intro seen
    rw [dedupGo]
    by_cases hcond : (seen.any (fun k => keyEqB k (geneKey x))) = true
    · rw [if_pos hcond]
      exact ih seen
    · rw [if_neg hcond]
      refine List.Pairwise.cons ?_ (ih (geneKey x :: seen))
      intro b hb
      have := dedupGo_not_seen rest (geneKey x :: seen) b hb
      rw [List.any_cons] at this
      exact (Bool.or_eq_false_iff.mp this).1

theorem keyEqB_trans : ∀ (a b c : List Cell), keyEqB a b = true → keyEqB b c = true →
    keyEqB a c = true := by
  intro a
  induction a with
  | nil =>
    intro b c h1 h2
    cases b with
    | nil => exact h2
    | cons y b => simp [keyEqB] at h1
  | cons x a ih =>
    intro b c h1 h2
    cases b with
    | nil => simp [keyEqB] at h1
    | cons y b =>
      cases c with
      | nil => simp [keyEqB] at h2
      | cons z c =>
        simp only [keyEqB, List.length_cons, List.zip_cons_cons, List.all_cons,
          Bool.and_eq_true, beq_iff_eq, Nat.add_right_cancel_iff] at h1 h2 ⊢
        have hl1 := h1.1
        have hx1 := h1.2.1
        have hrest1 := h1.2.2
        have hl2 := h2.1
        have hx2 := h2.2.1
        have hrest2 := h2.2.2
        refine ⟨hl1.trans hl2, cellKeyEqB_trans hx1 hx2, ?_⟩
        have hab : keyEqB a b = true := by
          simp only [keyEqB, Bool.and_eq_true, beq_iff_eq]
          exact ⟨hl1, hrest1⟩
        have hbc : keyEqB b c = true := by
          simp only [keyEqB, Bool.and_eq_true, beq_iff_eq]
          exact ⟨hl2, hrest2⟩
        have := ih b c hab hbc
        simp only [keyEqB, Bool.and_eq_true, beq_iff_eq] at this
        exact this.2

theorem dedupGo_first :
    ∀ (l seen : List (List Cell)), ∀ r ∈ dedupGo geneKey seen l,
      l.find? (fun r2 => keyEqB (geneKey r2) (geneKey r)) = some r := by
  intro l
  induction l with
  | nil =>
    intro seen r hr
    rw [dedupGo] at hr
    simp at hr
  | cons x rest ih =>
    intro seen r hr
    rw [dedupGo] at hr
    by_cases hcond : (seen.any (fun k => keyEqB k (geneKey x))) = true
    · rw [if_pos hcond] at hr
      have hfind := ih seen r hr
      have hnot : keyEqB (geneKey x) (geneKey r) = false := by
        by_cases hxr : keyEqB (geneKey x) (geneKey r) = true
        · exfalso
          obtain ⟨k, hk, hkx⟩ := List.any_eq_true.mp hcond
          have hseenr := dedupGo_not_seen rest seen r hr
          have : seen.any (fun k => keyEqB k (geneKey r)) = true :=
            List.any_eq_true.mpr ⟨k, hk, keyEqB_trans k (geneKey x) (geneKey r) hkx hxr⟩
          rw [hseenr] at this
          exact absurd this (by simp)
        · simpa using hxr
      rw [List.find?_cons_of_neg _ (by simp [hnot])]
      exact hfind
    · rw [if_neg hcond] at hr
      rcases List.mem_cons.mp hr with h | h
      · subst h
        rw [List.find?_cons_of_pos _ (by rw [geneKey_eqB]; exact cellKeyEqB_refl _)]
      · have hfind := ih (geneKey x :: seen) r h
        have hns := dedupGo_not_seen rest (geneKey x :: seen) r h
        rw [List.any_cons] at hns
        have hxr : keyEqB (geneKey x) (geneKey r) = false :=
          (Bool.or_eq_false_iff.mp hns).1
        rw [List.find?_cons_of_neg _ (by simp [hxr])]
        exact hfind

theorem clean_data_ok (df : DataFrame) (gi ci ti : Nat)
    (hg : colIdxs (normalize_columns df) "gene" = [gi])
    (hc : colIdxs (normalize_columns df) "ctrl" = [ci])
    (ht : colIdxs (normalize_columns df) "treat" = [ti]) :
    clean_data df = Except.ok
      ⟨["gene", "ctrl", "treat"],
        dedupGo geneKey []
          (((normalize_columns df).rows.map (cleanRowOf gi ci ti)).filter keepRow3)⟩ := by
  have hgene : (normalize_columns df).cols.contains "gene" = true := contains_of_colIdxsL hg
  have hctrl : (normalize_columns df).cols.contains "ctrl" = true := contains_of_colIdxsL hc
  have htreat : (normalize_columns df).cols.contains "treat" = true := contains_of_colIdxsL ht
  have hgm : "gene" ∈ (normalize_columns df).cols := by
    simpa using hgene
  have hcm : "ctrl" ∈ (normalize_columns df).cols := by
    simpa using hctrl
  have htm : "treat" ∈ (normalize_columns df).cols := by
    simpa using htreat
  have hpresent : REQUIRED_COLUMNS.filter (fun c => (normalize_columns df).cols.contains c) =
      ["gene", "ctrl", "treat"] := by
    simp [REQUIRED_COLUMNS, List.filter, hgm, hcm, htm]
  have hgiP := mem_colIdxsL.mp (by rw [show colIdxsL (normalize_columns df).cols "gene" =
    colIdxs (normalize_columns df) "gene" from rfl, hg]; exact List.mem_singleton.mpr rfl)
  have hciP := mem_colIdxsL.mp (by rw [show colIdxsL (normalize_columns df).cols "ctrl" =
    colIdxs (normalize_columns df) "ctrl" from rfl, hc]; exact List.mem_singleton.mpr rfl)
  have htiP := mem_colIdxsL.mp (by rw [show colIdxsL (normalize_columns df).cols "treat" =
    colIdxs (normalize_columns df) "treat" from rfl, ht]; exact List.mem_singleton.mpr rfl)
  have hproj : projectCols (normalize_columns df) ["gene", "ctrl", "treat"] =
      ⟨["gene", "ctrl", "treat"],
        (normalize_columns df).rows.map
          (fun r => [r.getD gi Cell.na, r.getD ci Cell.na, r.getD ti Cell.na])⟩ := by
    unfold projectCols
    rw [show ((["gene", "ctrl", "treat"] : List String).map (colIdxs (normalize_columns df)))
      = [[gi], [ci], [ti]] from by
        rw [List.map_cons, List.map_cons, List.map_cons, List.map_nil, hg, hc, ht]]
    rw [show ([[gi], [ci], [ti]] : List (List Nat)).flatten = [gi, ci, ti] from by simp]
    show (⟨[gi, ci, ti].map (fun i => (normalize_columns df).cols.getD i ""),
      (normalize_columns df).rows.map
        (fun r => [gi, ci, ti].map (fun i => r.getD i Cell.na))⟩ : DataFrame) = _
    congr 1
    rw [List.map_cons, List.map_cons, List.map_cons, List.map_nil]
    rw [hgiP.2, hciP.2, htiP.2]
  have hco1 : coerceNumericCol
      (⟨["gene", "ctrl", "treat"],
        (normalize_columns df).rows.map
          (fun r => [r.getD gi Cell.na, r.getD ci Cell.na, r.getD ti Cell.na])⟩ : DataFrame)
      "ctrl" = Except.ok
      ⟨["gene", "ctrl", "treat"],
        (normalize_columns df).rows.map
          (fun r => [r.getD gi Cell.na, toNumericCell (r.getD ci Cell.na),
            r.getD ti Cell.na])⟩ := by
    show Except.ok (⟨["gene", "ctrl", "treat"],
      ((normalize_columns df).rows.map
        (fun r => [r.getD gi Cell.na, r.getD ci Cell.na, r.getD ti Cell.na])).map
          (fun r => r.set 1 (toNumericCell (r.getD 1 Cell.na)))⟩ : DataFrame) = _
    rw [List.map_map]
    rfl
  have hco2 : coerceNumericCol
      (⟨["gene", "ctrl", "treat"],
        (normalize_columns df).rows.map
          (fun r => [r.getD gi Cell.na, toNumericCell (r.getD ci Cell.na),
            r.getD ti Cell.na])⟩ : DataFrame)
      "treat" = Except.ok
      ⟨["gene", "ctrl", "treat"],
        (normalize_columns df).rows.map (cleanRowOf gi ci ti)⟩ := by
    show Except.ok (⟨["gene", "ctrl", "treat"],
      ((normalize_columns df).rows.map
        (fun r => [r.getD gi Cell.na, toNumericCell (r.getD ci Cell.na),
          r.getD ti Cell.na])).map
          (fun r => r.set 2 (toNumericCell (r.getD 2 Cell.na)))⟩ : DataFrame) = _
    rw [List.map_map]
    rfl
  have hbool : ∀ u v w : Bool,
      ((!u && (!v && (!w && true))) && !(u && (v && (w && true)))) =
        (!u && (!v && (!w && true))) := by
    decide
  have hfilters :
      (((normalize_columns df).rows.map (cleanRowOf gi ci ti)).filter
          (fun r => !(((List.range (3 : Nat)).all (fun i => cellIsNa (r.getD i Cell.na)))))).filter
          (fun r => ([0, 1, 2] : List Nat).all (fun i => !(cellIsNa (r.getD i Cell.na)))) =
        ((normalize_columns df).rows.map (cleanRowOf gi ci ti)).filter keepRow3 := by
    rw [List.filter_filter]
    apply List.filter_congr
    intro a ha
    obtain ⟨r0, hr0, rfl⟩ := List.mem_map.mp ha
    exact hbool (cellIsNa (r0.getD gi Cell.na)) (cellIsNa (toNumericCell (r0.getD ci Cell.na)))
      (cellIsNa (toNumericCell (r0.getD ti Cell.na)))
  simp only [clean_data, hpresent, List.isEmpty_cons, Bool.false_eq_true, if_false,
    hproj, hco1, hco2, exceptBindOk]
  rw [show dropAllNaRows (⟨["gene", "ctrl", "treat"],
    (normalize_columns df).rows.map (cleanRowOf gi ci ti)⟩ : DataFrame) =
    ⟨["gene", "ctrl", "treat"],
      ((normalize_columns df).rows.map (cleanRowOf gi ci ti)).filter
        (fun r => !(((List.range (3 : Nat)).all (fun i => cellIsNa (r.getD i Cell.na)))))⟩
    from rfl]
  rw [show dropNaSubsetRows (⟨["gene", "ctrl", "treat"],
    (((normalize_columns df).rows.map (cleanRowOf gi ci ti)).filter
      (fun r => !(((List.range (3 : Nat)).all (fun i => cellIsNa (r.getD i Cell.na))))))⟩ :
      DataFrame)
      (REQUIRED_COLUMNS.filter (fun c =>
        (⟨["gene", "ctrl", "treat"],
          (((normalize_columns df).rows.map (cleanRowOf gi ci ti)).filter
            (fun r => !(((List.range (3 : Nat)).all
              (fun i => cellIsNa (r.getD i Cell.na))))))⟩ : DataFrame).cols.contains c)) =
    ⟨["gene", "ctrl", "treat"],
      ((((normalize_columns df).rows.map (cleanRowOf gi ci ti)).filter
        (fun r => !(((List.range (3 : Nat)).all (fun i => cellIsNa (r.getD i Cell.na)))))).filter
        (fun r => ([0, 1, 2] : List Nat).all (fun i => !(cellIsNa (r.getD i Cell.na)))))⟩
    from rfl]
  rw [hfilters]
  rw [show ((⟨["gene", "ctrl", "treat"],
    ((normalize_columns df).rows.map (cleanRowOf gi ci ti)).filter keepRow3⟩ :
      DataFrame).cols.contains "gene") = true from rfl]
  rw [if_pos rfl]
  rfl

theorem toNumericCell_num {c : Cell} (h : cellIsNa (toNumericCell c) = false) :
    isNumCell (toNumericCell c) = true := by
  cases c with
  | str s =>
    rw [show toNumericCell (Cell.str s) =
      (match parseDecimal s with
       | some q => Cell.num (q : ℝ)
       | none => Cell.na) from rfl] at h ⊢
    cases hp : parseDecimal s with
    | none => rw [hp] at h; simp [cellIsNa] at h
    | some q => rfl
  | na => simp [toNumericCell, cellIsNa] at h
  | num x => rfl
  | pinf => rfl
  | ninf => rfl

/-- C6 amended: when the normalized table carries each of gene, ctrl and
treat exactly once, cleaning succeeds; the output has exactly the canonical
columns, at most as many rows as the input, every row a present gene with
numeric ctrl and treat, pairwise distinct gene keys, and each retained row
is the first surviving occurrence of its gene in original row order. -/
theorem claim_C6_amended (df : DataFrame) (gi ci ti : Nat)
    (hg : colIdxs (normalize_columns df) "gene" = [gi])
    (hc : colIdxs (normalize_columns df) "ctrl" = [ci])
    (ht : colIdxs (normalize_columns df) "treat" = [ti]) :
    ∃ out, clean_data df = Except.ok out ∧
      out.cols = ["gene", "ctrl", "treat"] ∧
      out.rows.length ≤ df.rows.length ∧
      (∀ r ∈ out.rows,
        cellIsNa (r.getD 0 Cell.na) = false ∧
        isNumCell (r.getD 1 Cell.na) = true ∧
        isNumCell (r.getD 2 Cell.na) = true) ∧
      out.rows.Pairwise
        (fun a b => cellKeyEqB (a.getD 0 Cell.na) (b.getD 0 Cell.na) = false) ∧
      (∀ r ∈ out.rows,
        (((normalize_columns df).rows.map (cleanRowOf gi ci ti)).filter keepRow3).find?
          (fun r2 => cellKeyEqB (r2.getD 0 Cell.na) (r.getD 0 Cell.na)) = some r) := by
  refine ⟨_, clean_data_ok df gi ci ti hg hc ht, rfl, ?_, ?_, ?_, ?_⟩
  · calc (dedupGo geneKey []
        (((normalize_columns df).rows.map (cleanRowOf gi ci ti)).filter keepRow3)).length
      ≤ (((normalize_columns df).rows.map (cleanRowOf gi ci ti)).filter keepRow3).length :=
        (dedupGo_sublist geneKey _ []).length_le
    _ ≤ ((normalize_columns df).rows.map (cleanRowOf gi ci ti)).length :=
        List.length_filter_le _ _
    _ = df.rows.length := List.length_map _ _
  · intro r hr
    have hrpre : r ∈ ((normalize_columns df).rows.map (cleanRowOf gi ci ti)).filter keepRow3 :=
      (dedupGo_sublist geneKey _ []).subset hr
    obtain ⟨hrm, hkeep⟩ := List.mem_filter.mp hrpre
    obtain ⟨r0, _, rfl⟩ := List.mem_map.mp hrm
    have hkeep' := hkeep
    simp only [keepRow3, List.all_cons, List.all_nil, Bool.and_eq_true,
      Bool.not_eq_true'] at hkeep'
    obtain ⟨h0, h1, h2, _⟩ := hkeep'
    exact ⟨h0, toNumericCell_num h1, toNumericCell_num h2⟩
  · have hp := dedupGo_pairwise
      (((normalize_columns df).rows.map (cleanRowOf gi ci ti)).filter keepRow3) []
    refine hp.imp ?_
    intro a b hab
    rwa [geneKey_eqB] at hab
  · intro r hr
    have hfe : (fun r2 => keyEqB (geneKey r2) (geneKey r)) =
        (fun r2 => cellKeyEqB (r2.getD 0 Cell.na) (r.getD 0 Cell.na)) :=
      funext (fun r2 => geneKey_eqB r2 r)
    rw [← hfe]
    exact dedupGo_first _ [] r hr

/-- Witness for C6 amended: a table with a duplicated gene value. -/
theorem claim_C6_amended_witness :
    ∃ out, clean_data tblDupGene = Except.ok out ∧
      out.cols = ["gene", "ctrl", "treat"] ∧
      out.rows.length ≤ tblDupGene.rows.length ∧
      (∀ r ∈ out.rows,
        cellIsNa (r.getD 0 Cell.na) = false ∧
        isNumCell (r.getD 1 Cell.na) = true ∧
        isNumCell (r.getD 2 Cell.na) = true) ∧
      out.rows.Pairwise
        (fun a b => cellKeyEqB (a.getD 0 Cell.na) (b.getD 0 Cell.na) = false) ∧
      (∀ r ∈ out.rows,
        (((normalize_columns tblDupGene).rows.map (cleanRowOf 0 1 2)).filter keepRow3).find?
          (fun r2 => cellKeyEqB (r2.getD 0 Cell.na) (r.getD 0 Cell.na)) = some r) :=
  claim_C6_amended tblDupGene 0 1 2 (by decide) (by decide) (by decide)

/-- Counterexample for C6: an ordinary table whose `ctrl` and `control`
columns collide after normalization still contains gene, ctrl and treat,
yet clean_data raises (pd.to_numeric receives a two-column selection)
instead of returning a cleaned table. -/
theorem claim_C6_counterexample :
    ("gene" ∈ (normalize_columns tblCollideFull).cols ∧
      "ctrl" ∈ (normalize_columns tblCollideFull).cols ∧
      "treat" ∈ (normalize_columns tblCollideFull).cols) ∧
    clean_data tblCollideFull = Except.error "to_numeric of duplicated column ctrl" := by
  exact ⟨by decide, by rfl⟩

theorem dropNaSubsetRows_nil (d : DataFrame) : dropNaSubsetRows d [] = d := by
  cases d with
  | mk cols rows =>
    show (⟨cols, rows.filter fun r =>
      ((([] : List String).map (colIdxs ⟨cols, rows⟩)).flatten.all
        fun i => !(cellIsNa (r.getD i Cell.na)))⟩ : DataFrame) = ⟨cols, rows⟩
    simp

/-- C5 amended: when none of the canonical columns survives normalization,
clean_data does not crash, but the result is not an empty or degenerate
table: the projection step is skipped entirely (the `if cols:` guard), so
the output keeps every original column and every row that is not
all-missing. -/
theorem claim_C5_amended (df : DataFrame)
    (h : REQUIRED_COLUMNS.all
      (fun c => !((normalize_columns df).cols.contains c)) = true) :
    clean_data df = Except.ok (dropAllNaRows (normalize_columns df)) := by
  have h' := h
  simp only [REQUIRED_COLUMNS, List.all_cons, List.all_nil, Bool.and_eq_true,
    Bool.and_true, Bool.not_eq_true'] at h'
  obtain ⟨hg, hc, ht⟩ := h'
  have hgm : "gene" ∉ (normalize_columns df).cols := by simpa using hg
  have hcm : "ctrl" ∉ (normalize_columns df).cols := by simpa using hc
  have htm : "treat" ∉ (normalize_columns df).cols := by simpa using ht
  have hpres : REQUIRED_COLUMNS.filter
      (fun c => (normalize_columns df).cols.contains c) = [] := by
    simp [REQUIRED_COLUMNS, List.filter_cons, hgm, hcm, htm]
  have hco1 : coerceNumericCol (normalize_columns df) "ctrl" =
      Except.ok (normalize_columns df) := by
    simp [coerceNumericCol, hcm]
  have hco2 : coerceNumericCol (normalize_columns df) "treat" =
      Except.ok (normalize_columns df) := by
    simp [coerceNumericCol, htm]
  have hcols4 : (dropAllNaRows (normalize_columns df)).cols =
      (normalize_columns df).cols := rfl
  have hpres4 : REQUIRED_COLUMNS.filter
      (fun c => (dropAllNaRows (normalize_columns df)).cols.contains c) = [] := by
    rw [hcols4]; exact hpres
  have hgm4 : ((dropAllNaRows (normalize_columns df)).cols.contains "gene") = false := by
    rw [hcols4]; simpa using hgm
  simp only [clean_data, hpres, List.isEmpty_nil, if_true, hco1, hco2, exceptBindOk,
    hpres4, dropNaSubsetRows_nil, hgm4, Bool.false_eq_true, if_false]
  rfl

/-- Witness for C5 amended: a table whose single column aliases nothing. -/
theorem claim_C5_amended_witness :
    (REQUIRED_COLUMNS.all
      (fun c => !((normalize_columns tblFoo).cols.contains c)) = true) ∧
    clean_data tblFoo = Except.ok (dropAllNaRows (normalize_columns tblFoo)) :=
  ⟨by decide, claim_C5_amended tblFoo (by decide)⟩

/-- Counterexample for C5: with no canonical column present, clean_data on
a one-column one-row table returns that same non-empty, non-degenerate
table (the original column and row are retained), not an empty or
degenerate one. -/
theorem claim_C5_counterexample :
    (REQUIRED_COLUMNS.all
      (fun c => !((normalize_columns tblFoo).cols.contains c)) = true) ∧
    clean_data tblFoo = Except.ok ⟨["foo"], [[Cell.str "x"]]⟩ :=
  ⟨by decide, by rfl⟩

/-- C8 amended: validate_data always returns a report, and numeric_issue is
true iff ctrl or treat is present after normalization and its probe fails —
either some cell of such a column does not parse as a number, or the label
occurs more than once (pd.to_numeric then receives a DataFrame and raises
even with no unparseable cell). -/
theorem claim_C8_amended (df : DataFrame) :
    (validate_data df).numeric_issue = true ↔
      ∃ col ∈ (["ctrl", "treat"] : List String),
        (normalize_columns df).cols.contains col = true ∧
        (2 ≤ (colIdxs (normalize_columns df) col).length ∨
          ∃ i ∈ colIdxs (normalize_columns df) col,
            ∃ c ∈ colCells (normalize_columns df) i, cellParses c = false) := by
  simp [validate_data, colNumericIssue, List.any_eq_true, Bool.and_eq_true,
    Bool.or_eq_true, decide_eq_true_eq, Bool.not_eq_true']

/-- Counterexample for C8: two all-numeric columns that both normalize to
ctrl — every cell parses, treat is absent, yet numeric_issue is true. -/
theorem claim_C8_counterexample :
    (validate_data tblCollide).numeric_issue = true ∧
    ((colIdxs (normalize_columns tblCollide) "ctrl").all
      (fun i => (colCells (normalize_columns tblCollide) i).all cellParses)) = true ∧
    (normalize_columns tblCollide).cols.contains "treat" = false := by
  decide

end BioFlow
